import Mathlib

/-!
# financial-api: the HTTP front-end of the ledger gateway

A shallow embedding of `financial-api/main.go`.

* Go `string` and `[]byte` values are Lean strings (a request body is taken to be
  well-formed text); an `error` value is the text its `Error()` method returns.
* The calls into libraries are explicit inputs of the handlers (`Env`): the ledger
  contract (`EvaluateTransaction`, `SubmitTransaction`), the JSON decoder applied
  to the request body, and `fmt.Sprintf("%f", x)` on a `float64`. What the handlers
  do holds for every such input.
* `float64` is a type parameter `F`.
* The `http.ResponseWriter` is a value threaded through the handler; the calls a
  handler makes on the contract are returned as a list, oldest first. The lines the
  handlers write to the log are left out.
* Go's own decoder, `json.NewDecoder(r.Body).Decode`, is modelled after
  `encoding/json` (`Decode`): the scanner and `readValue`, which find the first JSON
  value of the body, and the second pass, which stores that value in an `Asset`.
  `goEnv` is the environment with this decoder.
* `newSign` returns the signer or the panic that ends the process (`Except`).
-/

namespace FinancialApi

/-! ## Data model -/

/-- Asset describes the financial account details (`type Asset struct`). -/
structure Asset (F : Type) where
  DEALERID : String
  MSISDN : String
  MPIN : String
  BALANCE : F
  STATUS : String
  TRANSAMOUNT : F
  TRANSTYPE : String
  REMARKS : String
  deriving DecidableEq, Repr

/-! ## net/http: status codes, header map, response writer, request -/

def StatusOK : Nat := 200
def StatusCreated : Nat := 201
def StatusBadRequest : Nat := 400
def StatusMethodNotAllowed : Nat := 405
def StatusInternalServerError : Nat := 500

/-- An `http.Header` restricted to what the handlers do with it: every key they
use is already in canonical form and holds one value. -/
abbrev Header := List (String × String)

/-- Go's `Header.Del`. -/
def Header.Del (h : Header) (key : String) : Header :=
  h.filter (fun kv => kv.1 != key)

/-- Go's `Header.Set`: the value replaces whatever the key held. -/
def Header.Set (h : Header) (key value : String) : Header :=
  (key, value) :: Header.Del h key

/-- Go's `Header.Get`: the value of the key, or the empty string. -/
def Header.Get (h : Header) (key : String) : String :=
  match h.lookup key with
  | some v => v
  | none => ""

/-- The state of an `http.ResponseWriter`: the header map the handler edits, and
what has gone out: the status line, the header as it stood then, the body. -/
structure ResponseWriter where
  header : Header
  wroteHeader : Bool
  status : Nat
  sent : Header
  body : String
  deriving DecidableEq, Repr

/-- The writer a handler is called with. -/
def ResponseWriter.new : ResponseWriter :=
  { header := [], wroteHeader := false, status := 0, sent := [], body := "" }

/-- Go's `w.Header().Set(key, value)`. -/
def ResponseWriter.SetHeader (w : ResponseWriter) (key value : String) : ResponseWriter :=
  { w with header := Header.Set w.header key value }

/-- Go's `w.Header().Del(key)`. -/
def ResponseWriter.DelHeader (w : ResponseWriter) (key : String) : ResponseWriter :=
  { w with header := Header.Del w.header key }

/-- Go's `w.WriteHeader(code)`: the first call fixes the status and the header,
later calls change nothing. -/
def ResponseWriter.WriteHeader (w : ResponseWriter) (code : Nat) : ResponseWriter :=
  if w.wroteHeader then w
  else { w with wroteHeader := true, status := code, sent := w.header }

/-- Whether a response with this status may carry a body
(`bodyAllowedForStatus` of net/http). -/
def bodyAllowedForStatus (status : Nat) : Bool :=
  if 100 ≤ status ∧ status ≤ 199 then false
  else if status = 204 then false
  else if status = 304 then false
  else true

/-- Go's `w.Write(b)`: sends status 200 first when no status has been sent. -/
def ResponseWriter.Write (w : ResponseWriter) (b : String) : ResponseWriter :=
  let w1 := if w.wroteHeader then w else w.WriteHeader StatusOK
  if bodyAllowedForStatus w1.status then { w1 with body := w1.body ++ b } else w1

/-- Go's `http.Error(w, error, code)`: a plain-text reply whose body is the
message and a line feed (`fmt.Fprintln`). Of the headers it deletes the handlers
set none; `Content-Length` stands for them. -/
def httpError (w : ResponseWriter) (error : String) (code : Nat) : ResponseWriter :=
  let w1 := w.DelHeader "Content-Length"
  let w2 := w1.SetHeader "Content-Type" "text/plain; charset=utf-8"
  let w3 := w2.SetHeader "X-Content-Type-Options" "nosniff"
  let w4 := w3.WriteHeader code
  w4.Write (error ++ "\n")

/-- The header `http.Error` sends from a fresh writer. -/
def errorHeader : Header :=
  [("X-Content-Type-Options", "nosniff"), ("Content-Type", "text/plain; charset=utf-8")]

/-- What the server does when the handler returns: a handler that sent no
status gets 200. -/
def ResponseWriter.finish (w : ResponseWriter) : ResponseWriter :=
  if w.wroteHeader then w else w.WriteHeader StatusOK

/-- The parsed query of a request URL (`url.Values`, a map from a key to its
values; a key that is absent maps to no value). -/
abbrev Values := String → List String

/-- Go's `Values.Get`: the first value of the key, or the empty string. -/
def Values.Get (v : Values) (key : String) : String :=
  match v key with
  | [] => ""
  | x :: _ => x

/-- The part of an `*http.Request` the handlers read: the method, the parsed
URL query (`r.URL.Query()`) and the body. -/
structure Request where
  Method : String
  Query : Values
  Body : String

/-! ## The ledger contract and the other library calls -/

deriving instance DecidableEq for Except

/-- The two ways a handler calls the contract. -/
inductive TxKind where
  | Evaluate
  | Submit
  deriving DecidableEq, Repr

/-- One call on the contract, with what it returned. -/
structure LedgerCall where
  kind : TxKind
  name : String
  args : List String
  result : Except String String
  deriving DecidableEq, Repr

/-- Whether the call returned without an error. -/
def LedgerCall.succeeded (c : LedgerCall) : Bool :=
  match c.result with
  | .ok _ => true
  | .error _ => false

/-- What the handlers call outside this file. -/
structure Env (F : Type) where
  /-- The call `contract.EvaluateTransaction(name, args...)`. -/
  EvaluateTransaction : String → List String → Except String String
  /-- The call `contract.SubmitTransaction(name, args...)`. -/
  SubmitTransaction : String → List String → Except String String
  /-- The call `json.NewDecoder(r.Body).Decode(&asset)` on a fresh `Asset`: the record
  it leaves in `asset`, or the text of the error it returns. -/
  Decode : String → Except String (Asset F)
  /-- The call `fmt.Sprintf("%f", x)`. -/
  Sprintf_f : F → String

/-- What a handler run leaves behind: the response writer and the contract
calls it made. -/
structure Outcome where
  w : ResponseWriter
  calls : List LedgerCall
  deriving DecidableEq, Repr

/-! ## The handlers -/

/-- The handler `getAsset`. -/
def getAsset {F : Type} (env : Env F) (w : ResponseWriter) (r : Request) : Outcome :=
  let dealerId := Values.Get r.Query "dealerid"
  if dealerId = "" then
    { w := httpError w "dealerid query parameter is required" StatusBadRequest, calls := [] }
  else
    let res := env.EvaluateTransaction "ReadAsset" [dealerId]
    let call : LedgerCall :=
      { kind := .Evaluate, name := "ReadAsset", args := [dealerId], result := res }
    match res with
    | .error err =>
      { w := httpError w ("Failed to evaluate transaction: " ++ err) StatusInternalServerError,
        calls := [call] }
    | .ok evaluateResult =>
      { w := (w.SetHeader "Content-Type" "application/json").Write evaluateResult,
        calls := [call] }

/-- The handler `createAsset`. -/
def createAsset {F : Type} (env : Env F) (w : ResponseWriter) (r : Request) : Outcome :=
  match env.Decode r.Body with
  | .error err => { w := httpError w err StatusBadRequest, calls := [] }
  | .ok asset =>
    let args : List String :=
      [asset.DEALERID, asset.MSISDN, asset.MPIN, env.Sprintf_f asset.BALANCE, asset.STATUS,
       env.Sprintf_f asset.TRANSAMOUNT, asset.TRANSTYPE, asset.REMARKS]
    let res := env.SubmitTransaction "CreateAsset" args
    let call : LedgerCall :=
      { kind := .Submit, name := "CreateAsset", args := args, result := res }
    match res with
    | .error err =>
      { w := httpError w ("Failed to submit transaction: " ++ err) StatusInternalServerError,
        calls := [call] }
    | .ok _ =>
      { w := (w.WriteHeader StatusCreated).Write
          ("Asset " ++ asset.DEALERID ++ " created successfully"),
        calls := [call] }

/-- The handler `assetsHandler`, the one registered on `/assets`. -/
def assetsHandler {F : Type} (env : Env F) (w : ResponseWriter) (r : Request) : Outcome :=
  if r.Method = "GET" then getAsset env w r
  else if r.Method = "POST" then createAsset env w r
  else { w := httpError w "Method not allowed" StatusMethodNotAllowed, calls := [] }

/-- Serving one request to `/assets`: the handler runs on a fresh writer, then
the server completes the response. -/
def serve {F : Type} (env : Env F) (r : Request) : Outcome :=
  let o := assetsHandler env ResponseWriter.new r
  { o with w := o.w.finish }

/-! ## encoding/json: the scanner (scanner.go) -/

/-- The values of the scanner's parse stack. -/
inductive ParseState where
  | parseObjectKey
  | parseObjectValue
  | parseArrayValue
  deriving DecidableEq, Repr

/-- The opcodes a scanner step returns. -/
inductive Opcode where
  | scanContinue
  | scanBeginLiteral
  | scanBeginObject
  | scanObjectKey
  | scanObjectValue
  | scanEndObject
  | scanBeginArray
  | scanArrayValue
  | scanEndArray
  | scanSkipSpace
  | scanEnd
  | scanError
  deriving DecidableEq, Repr

/-- The scanner's state functions, by name. -/
inductive Step where
  | stateBeginValueOrEmpty
  | stateBeginValue
  | stateBeginStringOrEmpty
  | stateBeginString
  | stateEndValue
  | stateEndTop
  | stateInString
  | stateInStringEsc
  | stateInStringEscU
  | stateInStringEscU1
  | stateInStringEscU12
  | stateInStringEscU123
  | stateNeg
  | state1
  | state0
  | stateDot
  | stateDot0
  | stateE
  | stateESign
  | stateE0
  | stateT
  | stateTr
  | stateTru
  | stateF
  | stateFa
  | stateFal
  | stateFals
  | stateN
  | stateNu
  | stateNul
  | stateError
  deriving DecidableEq, Repr

/-- The errors `Decode` returns. -/
inductive DecodeError where
  /-- A `*json.SyntaxError` of the scanner: the offending character and where it stood. -/
  | InvalidCharacter (c : Char) (context : String)
  /-- The error `io.EOF`: the body holds no value at all. -/
  | EOF
  /-- The error `io.ErrUnexpectedEOF`: the body ends inside a value. -/
  | ErrUnexpectedEOF
  /-- A `*json.UnmarshalTypeError`: a JSON value of kind `value` met a Go value of
  type `type`, in field `field` of the record (no field: the record itself). -/
  | UnmarshalTypeError (value : String) (field : Option String) (type : String)
  /-- The second pass met text the scanner had not accepted (Go panics with
  `phasePanicMsg` there). -/
  | PhasePanic
  deriving DecidableEq, Repr

/-- The scanner: the next state function, the parse stack (innermost first), the
error and whether the top-level value has ended. -/
structure Scanner where
  step : Step
  parseState : List ParseState
  err : Option DecodeError
  endTop : Bool
  deriving DecidableEq, Repr

def maxNestingDepth : Nat := 10000

/-- The scanner after `reset`. -/
def Scanner.reset : Scanner :=
  { step := .stateBeginValue, parseState := [], err := none, endTop := false }

/-- The method `error`: records the error and stops the scanner. -/
def Scanner.error (s : Scanner) (c : Char) (context : String) : Scanner × Opcode :=
  ({ s with step := .stateError, err := some (.InvalidCharacter c context) }, .scanError)

/-- The method `pushParseState`. -/
def Scanner.pushParseState (s : Scanner) (c : Char) (newParseState : ParseState)
    (successState : Opcode) : Scanner × Opcode :=
  let s1 := { s with parseState := newParseState :: s.parseState }
  if s1.parseState.length ≤ maxNestingDepth then (s1, successState)
  else s1.error c "exceeded max depth"

/-- The method `popParseState`. -/
def Scanner.popParseState (s : Scanner) : Scanner :=
  let rest := s.parseState.tail
  if rest.length = 0 then { s with parseState := rest, step := .stateEndTop, endTop := true }
  else { s with parseState := rest, step := .stateEndValue }

/-- Replaces the innermost entry of the parse stack. -/
def Scanner.setTop (s : Scanner) (p : ParseState) : Scanner :=
  { s with parseState := p :: s.parseState.tail }

def isSpace (c : Char) : Bool :=
  c == ' ' || c == '\t' || c == '\r' || c == '\n'

def isDigit19 (c : Char) : Bool := '1' ≤ c && c ≤ '9'

def isDigit09 (c : Char) : Bool := '0' ≤ c && c ≤ '9'

def isHex (c : Char) : Bool :=
  ('0' ≤ c && c ≤ '9') || ('a' ≤ c && c ≤ 'f') || ('A' ≤ c && c ≤ 'F')

def stateEndTop (s : Scanner) (c : Char) : Scanner × Opcode :=
  if !isSpace c then ((s.error c "after top-level value").1, .scanEnd)
  else (s, .scanEnd)

def stateEndValue (s : Scanner) (c : Char) : Scanner × Opcode :=
  match s.parseState with
  | [] => stateEndTop { s with step := .stateEndTop, endTop := true } c
  | ps :: _ =>
    if isSpace c then ({ s with step := .stateEndValue }, .scanSkipSpace)
    else
      match ps with
      | .parseObjectKey =>
        if c == ':' then
          ({ s.setTop .parseObjectValue with step := .stateBeginValue }, .scanObjectKey)
        else s.error c "after object key"
      | .parseObjectValue =>
        if c == ',' then
          ({ s.setTop .parseObjectKey with step := .stateBeginString }, .scanObjectValue)
        else if c == '\x7d' then (s.popParseState, .scanEndObject)
        else s.error c "after object key:value pair"
      | .parseArrayValue =>
        if c == ',' then ({ s with step := .stateBeginValue }, .scanArrayValue)
        else if c == ']' then (s.popParseState, .scanEndArray)
        else s.error c "after array element"

def stateBeginString (s : Scanner) (c : Char) : Scanner × Opcode :=
  if isSpace c then (s, .scanSkipSpace)
  else if c == '"' then ({ s with step := .stateInString }, .scanBeginLiteral)
  else s.error c "looking for beginning of object key string"

def stateBeginStringOrEmpty (s : Scanner) (c : Char) : Scanner × Opcode :=
  if isSpace c then (s, .scanSkipSpace)
  else if c == '\x7d' then stateEndValue (s.setTop .parseObjectValue) c
  else stateBeginString s c

def stateBeginValue (s : Scanner) (c : Char) : Scanner × Opcode :=
  if isSpace c then (s, .scanSkipSpace)
  else if c == '\x7b' then
    Scanner.pushParseState { s with step := .stateBeginStringOrEmpty } c .parseObjectKey
      .scanBeginObject
  else if c == '[' then
    Scanner.pushParseState { s with step := .stateBeginValueOrEmpty } c .parseArrayValue
      .scanBeginArray
  else if c == '"' then ({ s with step := .stateInString }, .scanBeginLiteral)
  else if c == '-' then ({ s with step := .stateNeg }, .scanBeginLiteral)
  else if c == '0' then ({ s with step := .state0 }, .scanBeginLiteral)
  else if c == 't' then ({ s with step := .stateT }, .scanBeginLiteral)
  else if c == 'f' then ({ s with step := .stateF }, .scanBeginLiteral)
  else if c == 'n' then ({ s with step := .stateN }, .scanBeginLiteral)
  else if isDigit19 c then ({ s with step := .state1 }, .scanBeginLiteral)
  else s.error c "looking for beginning of value"

def stateBeginValueOrEmpty (s : Scanner) (c : Char) : Scanner × Opcode :=
  if isSpace c then (s, .scanSkipSpace)
  else if c == ']' then stateEndValue s c
  else stateBeginValue s c

def stateInString (s : Scanner) (c : Char) : Scanner × Opcode :=
  if c == '"' then ({ s with step := .stateEndValue }, .scanContinue)
  else if c == '\\' then ({ s with step := .stateInStringEsc }, .scanContinue)
  else if c.toNat < 0x20 then s.error c "in string literal"
  else (s, .scanContinue)

def stateInStringEsc (s : Scanner) (c : Char) : Scanner × Opcode :=
  if c == 'b' || c == 'f' || c == 'n' || c == 'r' || c == 't' || c == '\\' || c == '/'
      || c == '"' then
    ({ s with step := .stateInString }, .scanContinue)
  else if c == 'u' then ({ s with step := .stateInStringEscU }, .scanContinue)
  else s.error c "in string escape code"

/-- The four states `stateInStringEscU`, `...U1`, `...U12`, `...U123`: a hexadecimal
digit leads to `next`. -/
def stateInStringEscHex (next : Step) (s : Scanner) (c : Char) : Scanner × Opcode :=
  if isHex c then ({ s with step := next }, .scanContinue)
  else s.error c "in \\u hexadecimal character escape"

def state0 (s : Scanner) (c : Char) : Scanner × Opcode :=
  if c == '.' then ({ s with step := .stateDot }, .scanContinue)
  else if c == 'e' || c == 'E' then ({ s with step := .stateE }, .scanContinue)
  else stateEndValue s c

def state1 (s : Scanner) (c : Char) : Scanner × Opcode :=
  if isDigit09 c then ({ s with step := .state1 }, .scanContinue)
  else state0 s c

def stateNeg (s : Scanner) (c : Char) : Scanner × Opcode :=
  if c == '0' then ({ s with step := .state0 }, .scanContinue)
  else if isDigit19 c then ({ s with step := .state1 }, .scanContinue)
  else s.error c "in numeric literal"

def stateDot (s : Scanner) (c : Char) : Scanner × Opcode :=
  if isDigit09 c then ({ s with step := .stateDot0 }, .scanContinue)
  else s.error c "after decimal point in numeric literal"

def stateDot0 (s : Scanner) (c : Char) : Scanner × Opcode :=
  if isDigit09 c then (s, .scanContinue)
  else if c == 'e' || c == 'E' then ({ s with step := .stateE }, .scanContinue)
  else stateEndValue s c

def stateESign (s : Scanner) (c : Char) : Scanner × Opcode :=
  if isDigit09 c then ({ s with step := .stateE0 }, .scanContinue)
  else s.error c "in exponent of numeric literal"

def stateE (s : Scanner) (c : Char) : Scanner × Opcode :=
  if c == '+' || c == '-' then ({ s with step := .stateESign }, .scanContinue)
  else stateESign s c

def stateE0 (s : Scanner) (c : Char) : Scanner × Opcode :=
  if isDigit09 c then (s, .scanContinue)
  else stateEndValue s c

/-- The states inside `true`, `false` and `null`: the character `want` leads to
`next`, anything else is an error in literal `lit`. -/
def stateLiteral (want : Char) (next : Step) (lit : String) (s : Scanner) (c : Char) :
    Scanner × Opcode :=
  if c == want then ({ s with step := next }, .scanContinue)
  else s.error c ("in literal " ++ lit ++ " (expecting \x27" ++ want.toString ++ "\x27)")

/-- One scanner step `s.step(s, c)`. -/
def Scanner.call (s : Scanner) (c : Char) : Scanner × Opcode :=
  match s.step with
  | .stateBeginValueOrEmpty => stateBeginValueOrEmpty s c
  | .stateBeginValue => stateBeginValue s c
  | .stateBeginStringOrEmpty => stateBeginStringOrEmpty s c
  | .stateBeginString => stateBeginString s c
  | .stateEndValue => stateEndValue s c
  | .stateEndTop => stateEndTop s c
  | .stateInString => stateInString s c
  | .stateInStringEsc => stateInStringEsc s c
  | .stateInStringEscU => stateInStringEscHex .stateInStringEscU1 s c
  | .stateInStringEscU1 => stateInStringEscHex .stateInStringEscU12 s c
  | .stateInStringEscU12 => stateInStringEscHex .stateInStringEscU123 s c
  | .stateInStringEscU123 => stateInStringEscHex .stateInString s c
  | .stateNeg => stateNeg s c
  | .state1 => state1 s c
  | .state0 => state0 s c
  | .stateDot => stateDot s c
  | .stateDot0 => stateDot0 s c
  | .stateE => stateE s c
  | .stateESign => stateESign s c
  | .stateE0 => stateE0 s c
  | .stateT => stateLiteral 'r' .stateTr "true" s c
  | .stateTr => stateLiteral 'u' .stateTru "true" s c
  | .stateTru => stateLiteral 'e' .stateEndValue "true" s c
  | .stateF => stateLiteral 'a' .stateFa "false" s c
  | .stateFa => stateLiteral 'l' .stateFal "false" s c
  | .stateFal => stateLiteral 's' .stateFals "false" s c
  | .stateFals => stateLiteral 'e' .stateEndValue "false" s c
  | .stateN => stateLiteral 'u' .stateNu "null" s c
  | .stateNu => stateLiteral 'l' .stateNul "null" s c
  | .stateNul => stateLiteral 'l' .stateEndValue "null" s c
  | .stateError => (s, .scanError)

/-! ## encoding/json: `Decoder.readValue` (stream.go) -/

/-- The loop of `readValue` over the bytes of the body from offset `scanp` on:
the offset just after the first JSON value, or the error. -/
def readValueLoop (s : Scanner) (scanp : Nat) : List Char → Except DecodeError Nat ⊕ Scanner
  | [] => .inr s
  | c :: cs =>
    let r := s.call c
    match r.2 with
    | .scanEnd => .inl (.ok scanp)
    | .scanEndObject | .scanEndArray =>
      if (stateEndValue r.1 ' ').2 = .scanEnd then .inl (.ok (scanp + 1))
      else readValueLoop r.1 (scanp + 1) cs
    | .scanError =>
      match r.1.err with
      | some e => .inl (.error e)
      | none => .inl (.error (.InvalidCharacter c ""))
    | _ => readValueLoop r.1 (scanp + 1) cs

/-- The function `nonSpace`: whether the buffer holds anything but white space. -/
def nonSpace (b : List Char) : Bool := b.any (fun c => !isSpace c)

/-- The method `Decoder.readValue` of a fresh decoder, on a body read to its end:
the length of the text of the first JSON value (leading white space included). -/
def readValue (body : List Char) : Except DecodeError Nat :=
  match readValueLoop Scanner.reset 0 body with
  | .inl res => res
  | .inr s =>
    if (s.call ' ').2 = .scanEnd then .ok body.length
    else if nonSpace body then .error .ErrUnexpectedEOF
    else .error .EOF

/-! ## encoding/json: storing the value (decode.go) -/

/-- A JSON value, as the second pass of the decoder walks it. -/
inductive JValue where
  | null
  | bool (b : Bool)
  | number (literal : String)
  | string (s : String)
  | array (elems : List JValue)
  | object (members : List (String × JValue))
  deriving Repr

def hexValue (c : Char) : Nat :=
  if isDigit09 c then c.toNat - 48
  else if 'a' ≤ c && c ≤ 'f' then c.toNat - 87
  else c.toNat - 55

/-- The function `getu4`: the number a leading `\uXXXX` writes, if there is one. -/
def getu4 : List Char → Option Nat
  | '\\' :: 'u' :: a :: b :: c :: d :: _ =>
    if isHex a && isHex b && isHex c && isHex d then
      some (((hexValue a * 16 + hexValue b) * 16 + hexValue c) * 16 + hexValue d)
    else none
  | _ => none

def replacementChar : Char := Char.ofNat 0xFFFD

def isSurrogate (r : Nat) : Bool := 0xd800 ≤ r && r < 0xe000

/-- Go's `utf16.DecodeRune`: the character of a surrogate pair, `U+FFFD` when the
two do not form one. -/
def utf16DecodeRune (r1 r2 : Nat) : Char :=
  if 0xd800 ≤ r1 && r1 < 0xdc00 && 0xdc00 ≤ r2 && r2 < 0xe000 then
    Char.ofNat ((r1 - 0xd800) * 1024 + (r2 - 0xdc00) + 0x10000)
  else replacementChar

/-- The function `unquote` on the text between the quotes of a string literal. The
extra argument bounds the number of steps by the length of the text. -/
def unquoteLoop : Nat → List Char → Option (List Char)
  | 0, [] => some []
  | 0, _ :: _ => none
  | _ + 1, [] => some []
  | n + 1, '\\' :: 'u' :: rest =>
    match getu4 ('\\' :: 'u' :: rest) with
    | none => none
    | some rr =>
      let after := rest.drop 4
      if isSurrogate rr then
        let dec := match getu4 after with
          | some rr1 => utf16DecodeRune rr rr1
          | none => replacementChar
        if dec ≠ replacementChar then (unquoteLoop n (after.drop 6)).map (dec :: ·)
        else (unquoteLoop n after).map (replacementChar :: ·)
      else (unquoteLoop n after).map (Char.ofNat rr :: ·)
  | n + 1, '\\' :: c :: rest =>
    let out : Option Char :=
      if c == '"' || c == '\\' || c == '/' || c == Char.ofNat 39 then some c
      else if c == 'b' then some (Char.ofNat 8)
      else if c == 'f' then some (Char.ofNat 12)
      else if c == 'n' then some '\n'
      else if c == 'r' then some '\r'
      else if c == 't' then some '\t'
      else none
    match out with
    | none => none
    | some o => (unquoteLoop n rest).map (o :: ·)
  | _ + 1, ['\\'] => none
  | n + 1, c :: rest =>
    if c == '"' || c.toNat < 0x20 then none
    else (unquoteLoop n rest).map (c :: ·)

def unquote (s : List Char) : Option String :=
  (unquoteLoop s.length s).map String.mk

/-- The method `rescanLiteral` on a string literal, from just after the opening
quote: the text up to the closing quote, and what follows that quote. -/
def rescanString : List Char → List Char → Option (List Char × List Char)
  | _, [] => none
  | acc, '"' :: rest => some (acc.reverse, rest)
  | acc, '\\' :: c :: rest => rescanString (c :: '\\' :: acc) rest
  | acc, c :: rest => rescanString (c :: acc) rest

def isNumberChar (c : Char) : Bool :=
  isDigit09 c || c == '.' || c == 'e' || c == 'E' || c == '+' || c == '-'

def skipSpace (cs : List Char) : List Char := cs.dropWhile isSpace

mutual
/-- The second pass over the text of a value (`decodeState.value`): the value and
the text after it. The first argument bounds the depth of the walk. -/
def parseValue : Nat → List Char → Option (JValue × List Char)
  | 0, _ => none
  | fuel + 1, cs =>
    match skipSpace cs with
    | [] => none
    | c :: rest =>
      if c == '\x7b' then
        match skipSpace rest with
        | '\x7d' :: rest1 => some (.object [], rest1)
        | rest1 => (parseMembers fuel rest1).map (fun r => (.object r.1, r.2))
      else if c == '[' then
        match skipSpace rest with
        | ']' :: rest1 => some (.array [], rest1)
        | rest1 => (parseElements fuel rest1).map (fun r => (.array r.1, r.2))
      else if c == '"' then
        match rescanString [] rest with
        | none => none
        | some (raw, rest1) => (unquote raw).map (fun s => (.string s, rest1))
      else if c == 'n' then some (.null, rest.drop 3)
      else if c == 't' then some (.bool true, rest.drop 3)
      else if c == 'f' then some (.bool false, rest.drop 4)
      else if c == '-' || isDigit09 c then
        some (.number (String.mk (c :: rest.takeWhile isNumberChar)),
          rest.dropWhile isNumberChar)
      else none
/-- The members of an object (`decodeState.object`), from the first key on. -/
def parseMembers : Nat → List Char → Option (List (String × JValue) × List Char)
  | 0, _ => none
  | fuel + 1, cs =>
    match skipSpace cs with
    | '"' :: rest =>
      match rescanString [] rest with
      | none => none
      | some (raw, rest1) =>
        match unquote raw, skipSpace rest1 with
        | some key, ':' :: rest2 =>
          match parseValue fuel rest2 with
          | none => none
          | some (v, rest3) =>
            match skipSpace rest3 with
            | '\x7d' :: rest4 => some ([(key, v)], rest4)
            | ',' :: rest4 =>
              (parseMembers fuel rest4).map (fun r => ((key, v) :: r.1, r.2))
            | _ => none
        | _, _ => none
    | _ => none
/-- The elements of an array (`decodeState.array`), from the first one on. -/
def parseElements : Nat → List Char → Option (List JValue × List Char)
  | 0, _ => none
  | fuel + 1, cs =>
    match parseValue fuel cs with
    | none => none
    | some (v, rest) =>
      match skipSpace rest with
      | ']' :: rest1 => some ([v], rest1)
      | ',' :: rest1 => (parseElements fuel rest1).map (fun r => (v :: r.1, r.2))
      | _ => none
end

/-- The fields of `Asset`, in the order of the declaration. -/
inductive Field where
  | DEALERID
  | MSISDN
  | MPIN
  | BALANCE
  | STATUS
  | TRANSAMOUNT
  | TRANSTYPE
  | REMARKS
  deriving DecidableEq, Repr

/-- The JSON name of a field, from its tag. -/
def Field.name : Field → String
  | .DEALERID => "DEALERID"
  | .MSISDN => "MSISDN"
  | .MPIN => "MPIN"
  | .BALANCE => "BALANCE"
  | .STATUS => "STATUS"
  | .TRANSAMOUNT => "TRANSAMOUNT"
  | .TRANSTYPE => "TRANSTYPE"
  | .REMARKS => "REMARKS"

def assetFields : List Field :=
  [.DEALERID, .MSISDN, .MPIN, .BALANCE, .STATUS, .TRANSAMOUNT, .TRANSTYPE, .REMARKS]

/-- What the decoder uses of Go's `float64` and of the Unicode tables. -/
structure JsonLib (F : Type) where
  /-- The zero value of `float64`. -/
  zero : F
  /-- The call `strconv.ParseFloat(s, 64)`; no value when it returns an error. -/
  ParseFloat : String → Option F
  /-- The function `foldRune` of fold.go on a character outside ASCII: the smallest
  character of its case-folding orbit (`unicode.SimpleFold`). -/
  foldRune : Char → Char

/-- The function `foldName` of fold.go: ASCII letters in upper case, the other
characters folded. -/
def foldName (foldRune : Char → Char) (name : String) : String :=
  String.mk (name.toList.map (fun c =>
    if c.toNat < 0x80 then
      if 'a' ≤ c && c ≤ 'z' then Char.ofNat (c.toNat - 32) else c
    else foldRune c))

/-- The field a key of the object names: the one with exactly that name, else the
first one with the same folded name (`byExactName`, then `byFoldedName`). -/
def findField (foldRune : Char → Char) (key : String) : Option Field :=
  match assetFields.find? (fun f => f.name == key) with
  | some f => some f
  | none => assetFields.find? (fun f => foldName foldRune f.name == foldName foldRune key)

/-- The kind of a JSON value, as an `UnmarshalTypeError` names it. -/
def JValue.kind : JValue → String
  | .null => "null"
  | .bool _ => "bool"
  | .number _ => "number"
  | .string _ => "string"
  | .array _ => "array"
  | .object _ => "object"

/-- Storing a JSON value in a field of type `string`: the new content of the field
and the error to save. A `null` leaves the field as it is. -/
def storeString (field : Field) (cur : String) (v : JValue) : String × Option DecodeError :=
  match v with
  | .string s => (s, none)
  | .null => (cur, none)
  | _ => (cur, some (.UnmarshalTypeError v.kind (some field.name) "string"))

/-- Storing a JSON value in a field of type `float64`. -/
def storeFloat {F : Type} (lib : JsonLib F) (field : Field) (cur : F) (v : JValue) :
    F × Option DecodeError :=
  match v with
  | .number literal =>
    match lib.ParseFloat literal with
    | some x => (x, none)
    | none =>
      (cur, some (.UnmarshalTypeError ("number " ++ literal) (some field.name) "float64"))
  | .null => (cur, none)
  | _ => (cur, some (.UnmarshalTypeError v.kind (some field.name) "float64"))

/-- Storing the value of one member in its field. -/
def storeField {F : Type} (lib : JsonLib F) (a : Asset F) (f : Field) (v : JValue) :
    Asset F × Option DecodeError :=
  match f with
  | .DEALERID => let r := storeString f a.DEALERID v; ({ a with DEALERID := r.1 }, r.2)
  | .MSISDN => let r := storeString f a.MSISDN v; ({ a with MSISDN := r.1 }, r.2)
  | .MPIN => let r := storeString f a.MPIN v; ({ a with MPIN := r.1 }, r.2)
  | .BALANCE => let r := storeFloat lib f a.BALANCE v; ({ a with BALANCE := r.1 }, r.2)
  | .STATUS => let r := storeString f a.STATUS v; ({ a with STATUS := r.1 }, r.2)
  | .TRANSAMOUNT =>
    let r := storeFloat lib f a.TRANSAMOUNT v; ({ a with TRANSAMOUNT := r.1 }, r.2)
  | .TRANSTYPE => let r := storeString f a.TRANSTYPE v; ({ a with TRANSTYPE := r.1 }, r.2)
  | .REMARKS => let r := storeString f a.REMARKS v; ({ a with REMARKS := r.1 }, r.2)

/-- The method `saveError`: the first error is the one kept. -/
def saveError (saved new : Option DecodeError) : Option DecodeError :=
  match saved with
  | some e => some e
  | none => new

/-- The loop of `decodeState.object` over the members of the object, in order: a
key that names no field is skipped, a type error is saved and the loop goes on. -/
def storeMembers {F : Type} (lib : JsonLib F) :
    Asset F → Option DecodeError → List (String × JValue) → Asset F × Option DecodeError
  | a, saved, [] => (a, saved)
  | a, saved, (key, v) :: rest =>
    match findField lib.foldRune key with
    | none => storeMembers lib a saved rest
    | some f =>
      let r := storeField lib a f v
      storeMembers lib r.1 (saveError saved r.2) rest

/-- The value of `var asset Asset`. -/
def zeroAsset {F : Type} (lib : JsonLib F) : Asset F :=
  { DEALERID := "", MSISDN := "", MPIN := "", BALANCE := lib.zero, STATUS := "",
    TRANSAMOUNT := lib.zero, TRANSTYPE := "", REMARKS := "" }

/-- The method `decodeState.unmarshal` into a fresh `Asset`, on the text of one
value: an object fills the fields, `null` changes nothing, any other value is a
type error. -/
def unmarshal {F : Type} (lib : JsonLib F) (text : List Char) : Except DecodeError (Asset F) :=
  match parseValue (text.length + 1) text with
  | none => .error .PhasePanic
  | some (.null, _) => .ok (zeroAsset lib)
  | some (.object members, _) =>
    match storeMembers lib (zeroAsset lib) none members with
    | (a, none) => .ok a
    | (_, some e) => .error e
  | some (v, _) => .error (.UnmarshalTypeError v.kind none "main.Asset")

/-- The call `json.NewDecoder(r.Body).Decode(&asset)` on a fresh `Asset`: the first
JSON value of the body is read and stored; what follows it is not looked at. -/
def Decode {F : Type} (lib : JsonLib F) (body : String) : Except DecodeError (Asset F) :=
  match readValue body.toList with
  | .error e => .error e
  | .ok n => unmarshal lib (body.toList.take n)

/-- Whether `readValue` finds the end of the first value of the text inside the
text: it has met the bracket that closes a top-level object or array, or a
character after a top-level literal. -/
def firstValueClosed (text : String) : Bool :=
  match readValueLoop Scanner.reset 0 text.toList with
  | .inl (.ok _) => true
  | _ => false

/-- The loop of `checkValid`: the scanner after the whole text, unless a step
fails. -/
def scanAll (s : Scanner) : List Char → Option Scanner
  | [] => some s
  | c :: cs =>
    let r := s.call c
    if r.2 = .scanError then none else scanAll r.1 cs


/-- The function `json.Valid`: whether the whole text is one JSON value, white
space around it allowed (`checkValid`: no step fails, and at the end of the text
the scanner is, or gets with one more space, at the end of the top-level value). -/
def Valid (text : String) : Bool :=
  match scanAll Scanner.reset text.toList with
  | none => false
  | some s =>
    match s.err with
    | some _ => false
    | none => s.endTop || (s.call ' ').1.endTop

/-! ## The shape of the first value -/

/-- Whether the field is one of the two of type `float64`. -/
def Field.isFloat : Field → Bool
  | .BALANCE => true
  | .TRANSAMOUNT => true
  | _ => false

/-- Whether a JSON value can be stored in the field: `null` in any field, a string
in a field of type `string`, a number `ParseFloat` accepts in a field of type
`float64`. -/
def fits {F : Type} (lib : JsonLib F) (f : Field) (v : JValue) : Bool :=
  match v with
  | .null => true
  | .string _ => !f.isFloat
  | .number literal => f.isFloat && (lib.ParseFloat literal).isSome
  | _ => false

/-- Whether a member of an object can be stored: its key names no field, or its
value fits the field the key names. -/
def memberFits {F : Type} (lib : JsonLib F) (kv : String × JValue) : Bool :=
  match findField lib.foldRune kv.1 with
  | none => true
  | some f => fits lib f kv.2

/-- The Account Record shape: `null`, or an object each member of which can be
stored. Fields may be absent and members that name no field may be present. -/
def recordShape {F : Type} (lib : JsonLib F) (v : JValue) : Bool :=
  match v with
  | .null => true
  | .object members => members.all (memberFits lib)
  | _ => false

/-- The first JSON value of the body, as the decoder reads it. -/
def firstValue (body : String) : Option JValue :=
  match readValue body.toList with
  | .error _ => none
  | .ok n =>
    (parseValue ((body.toList.take n).length + 1) (body.toList.take n)).map (fun r => r.1)

/-- Whether some initial segment of the body is a valid JSON document. -/
def hasValidStart (body : String) : Bool :=
  (List.range (body.toList.length + 1)).any
    (fun n => Valid (String.mk (body.toList.take n)))

/-! ## What holds of the scanner while `readValue` runs -/

/-- No error has been recorded, the state after the top-level value is entered
with `endTop` set, and the two states that may close a bracket are entered with
an open bracket on the parse stack. -/
def Scanner.Inv (s : Scanner) : Prop :=
  s.err = none ∧ (s.step = .stateEndTop → s.endTop = true) ∧
    (s.step = .stateBeginValueOrEmpty ∨ s.step = .stateBeginStringOrEmpty → s.parseState ≠ [])

/-- What a step leaves: an error, the end of the top-level value, or a scanner of
which `Inv` holds again and which, after a closing bracket that empties the parse
stack, has `endTop` set. -/
def Keeps (r : Scanner × Opcode) : Prop :=
  r.2 = .scanError ∨ r.2 = .scanEnd ∨
    (r.1.Inv ∧ (r.2 = .scanEndObject ∨ r.2 = .scanEndArray → r.1.parseState = [] →
      r.1.endTop = true))

/-- The step does not announce the end of the top-level value. -/
def NoEnd (r : Scanner × Opcode) : Prop := r.2 ≠ .scanEnd

/-! ## The text of the decoder's errors -/

def hexDigit (n : Nat) : Char :=
  if n < 10 then Char.ofNat (48 + n) else Char.ofNat (87 + n)

/-- The byte the scanner stops at when it stops at this character: the first
byte of its UTF-8 encoding. -/
def firstByte (c : Char) : Nat :=
  let n := c.toNat
  if n < 0x80 then n
  else if n < 0x800 then 0xC0 + n / 64
  else if n < 0x10000 then 0xE0 + n / 4096
  else 0xF0 + n / 262144

/-- The function `quoteChar` of scanner.go on that byte. -/
def quoteChar (c : Char) : String :=
  let b := firstByte c
  if b = 39 then "'\\''"
  else if b = 34 then "'\"'"
  else if b = 92 then "'\\\\'"
  else if b = 7 then "'\\a'"
  else if b = 8 then "'\\b'"
  else if b = 12 then "'\\f'"
  else if b = 10 then "'\\n'"
  else if b = 13 then "'\\r'"
  else if b = 9 then "'\\t'"
  else if b = 11 then "'\\v'"
  else if b < 0x20 ∨ b = 0x7f then
    "'\\x" ++ String.mk [hexDigit (b / 16), hexDigit (b % 16)] ++ "'"
  else "'" ++ String.mk [Char.ofNat b] ++ "'"

/-- The method `Error` of the error values. -/
def DecodeError.Error : DecodeError → String
  | .InvalidCharacter c context => "invalid character " ++ quoteChar c ++ " " ++ context
  | .EOF => "EOF"
  | .ErrUnexpectedEOF => "unexpected EOF"
  | .UnmarshalTypeError value (some field) type =>
    "json: cannot unmarshal " ++ value ++ " into Go struct field Asset." ++ field ++
      " of type " ++ type
  | .UnmarshalTypeError value none type =>
    "json: cannot unmarshal " ++ value ++ " into Go value of type " ++ type
  | .PhasePanic => "JSON decoder out of sync - data changing underfoot?"

/-! ## The service on Go's JSON decoder -/

/-- The environment whose decoder is Go's `encoding/json`. -/
def goEnv {F : Type} (lib : JsonLib F) (Sprintf_f : F → String)
    (EvaluateTransaction SubmitTransaction : String → List String → Except String String) :
    Env F :=
  { EvaluateTransaction := EvaluateTransaction
    SubmitTransaction := SubmitTransaction
    Decode := fun body =>
      match Decode lib body with
      | .ok a => .ok a
      | .error e => .error e.Error
    Sprintf_f := Sprintf_f }

/-! ## A small world for the examples

Amounts are whole numbers: a `float64` that holds a whole number below `2^53` is
that number, `ParseFloat` reads a literal made of digits only, and `%f` prints a
whole number with six zeros after the point. -/

def wholeParseFloat (s : String) : Option Nat :=
  if s.toList.all isDigit09 && !s.toList.isEmpty then
    some (s.toList.foldl (fun n c => n * 10 + (c.toNat - 48)) 0)
  else none

def wholeLib : JsonLib Nat :=
  { zero := 0, ParseFloat := wholeParseFloat, foldRune := fun c => c }

def wholeSprintf_f (x : Nat) : String := toString x ++ ".000000"

/-- An evaluation that knows dealer `D1` only. -/
def okEvaluate (_name : String) (args : List String) : Except String String :=
  if args = ["D1"] then .ok "\x7b\"DEALERID\":\"D1\",\"BALANCE\":100\x7d"
  else .error "the asset does not exist"

/-- A submission that is always accepted. -/
def okSubmit (_name : String) (_args : List String) : Except String String := .ok ""

/-- A call that always fails. -/
def downCall (_name : String) (_args : List String) : Except String String :=
  .error "connection refused"

/-- A ledger that knows dealer `D1` and accepts every submission. -/
def okLedger : Env Nat := goEnv wholeLib wholeSprintf_f okEvaluate okSubmit

/-- A ledger every call on which fails. -/
def downLedger : Env Nat := goEnv wholeLib wholeSprintf_f downCall downCall

def noQuery : Values := fun _ => []

def queryD1 : Values := fun key => if key = "dealerid" then ["D1"] else []

/-- A query whose `dealerid` is present and empty. -/
def queryEmpty : Values := fun key => if key = "dealerid" then [""] else []

def recordBody : String :=
  "\x7b\"DEALERID\":\"D1\",\"MSISDN\":\"0300\",\"MPIN\":\"1234\",\"BALANCE\":100," ++
  "\"STATUS\":\"ACTIVE\",\"TRANSAMOUNT\":25,\"TRANSTYPE\":\"CREDIT\",\"REMARKS\":\"first\"\x7d"

def recordD1 : Asset Nat :=
  { DEALERID := "D1", MSISDN := "0300", MPIN := "1234", BALANCE := 100, STATUS := "ACTIVE",
    TRANSAMOUNT := 25, TRANSTYPE := "CREDIT", REMARKS := "first" }

/-! ## Credential loading -/

def cryptoPath : String := "/test-network/organizations/peerOrganizations/org1.example.com"

def keyPath : String := cryptoPath ++ "/users/User1@org1.example.com/msp/keystore/"

/-- What `newSign` calls outside this file. -/
structure Sys (Key Sign : Type) where
  /-- The call `os.ReadDir(name)`: the names of the entries it returns, in the order
  of the listing, and the text of its error if it returns one. -/
  ReadDir : String → List String × Option String
  /-- The call `os.ReadFile(name)`. -/
  ReadFile : String → Except String String
  /-- The call `path.Join(dir, name)`. -/
  Join : String → String → String
  /-- The call `identity.PrivateKeyFromPEM(pem)`. -/
  PrivateKeyFromPEM : String → Except String Key
  /-- The call `identity.NewPrivateKeySign(key)`. -/
  NewPrivateKeySign : Key → Except String Sign

/-- A run of `newSign`: the paths it gave to `os.ReadFile`, oldest first, and the
signer it returned, or the text of the panic that ended it. -/
structure SignRun (Sign : Type) where
  reads : List String
  result : Except String Sign

/-- The function `newSign`. Indexing the empty listing with `files[0]` is Go's
run-time panic. -/
def newSign {Key Sign : Type} (sys : Sys Key Sign) : SignRun Sign :=
  match sys.ReadDir keyPath with
  | (_, some err) =>
    { reads := [], result := .error ("failed to read keystore directory: " ++ err) }
  | (files, none) =>
    match files with
    | [] => { reads := [], result := .error "runtime error: index out of range [0] with length 0" }
    | first :: _ =>
      let name := sys.Join keyPath first
      match sys.ReadFile name with
      | .error err =>
        { reads := [name], result := .error ("failed to read private key file: " ++ err) }
      | .ok privateKeyPEM =>
        match sys.PrivateKeyFromPEM privateKeyPEM with
        | .error err => { reads := [name], result := .error err }
        | .ok privateKey =>
          match sys.NewPrivateKeySign privateKey with
          | .error err => { reads := [name], result := .error err }
          | .ok sign => { reads := [name], result := .ok sign }

/-- The other steps of `main` before it serves: what `newGrpcConnection()` and
`newIdentity()` return (or the panic that ends them) and `client.Connect`. -/
structure Boot (Conn Id Sign Gw : Type) where
  newGrpcConnection : Except String Conn
  newIdentity : Except String Id
  Connect : Id → Sign → Conn → Except String Gw

/-- The function `main` up to the gateway it serves on: a panic in any step ends
the process, nothing in main.go recovers from one. -/
def mainStartup {Key Sign Conn Id Gw : Type} (boot : Boot Conn Id Sign Gw)
    (sys : Sys Key Sign) : Except String Gw :=
  match boot.newGrpcConnection with
  | .error p => .error p
  | .ok clientConnection =>
    match boot.newIdentity with
    | .error p => .error p
    | .ok id =>
      match (newSign sys).result with
      | .error p => .error p
      | .ok sign =>
        match boot.Connect id sign clientConnection with
        | .error err => .error ("failed to connect to gateway: " ++ err)
        | .ok gw => .ok gw

/-- A keystore with two entries; the first holds a key, the second does not. -/
def twoKeys : Sys String String :=
  { ReadDir := fun dir =>
      if dir = keyPath then (["a_sk", "b_sk"], none) else ([], some "no such directory")
    ReadFile := fun name =>
      if name = keyPath ++ "a_sk" then .ok "PEM a"
      else if name = keyPath ++ "b_sk" then .ok "garbage"
      else .error "no such file"
    Join := fun dir name => dir ++ name
    PrivateKeyFromPEM := fun pem =>
      if pem = "PEM a" then .ok "key a" else .error "failed to parse PEM"
    NewPrivateKeySign := fun key => .ok ("sign with " ++ key) }

/-- The same keystore with the listing replaced. -/
def withListing (sys : Sys String String) (listing : List String × Option String) :
    Sys String String :=
  { sys with ReadDir := fun _ => listing }

/-! ## Facts about the response writer -/

theorem httpError_new (msg : String) (code : Nat) (hc : bodyAllowedForStatus code = true) :
    httpError ResponseWriter.new msg code =
      { header := errorHeader, wroteHeader := true, status := code, sent := errorHeader,
        body := msg ++ "\n" } := by
  simp [httpError, ResponseWriter.new, ResponseWriter.DelHeader, ResponseWriter.SetHeader,
    ResponseWriter.WriteHeader, ResponseWriter.Write, Header.Set, Header.Del, errorHeader, hc]

theorem write_json_new (b : String) :
    (ResponseWriter.new.SetHeader "Content-Type" "application/json").Write b =
      { header := [("Content-Type", "application/json")], wroteHeader := true, status := 200,
        sent := [("Content-Type", "application/json")], body := b } := by
  simp [ResponseWriter.new, ResponseWriter.SetHeader, ResponseWriter.WriteHeader,
    ResponseWriter.Write, Header.Set, Header.Del, StatusOK, bodyAllowedForStatus]

theorem write_created_new (b : String) :
    (ResponseWriter.new.WriteHeader StatusCreated).Write b =
      { header := [], wroteHeader := true, status := 201, sent := [], body := b } := by
  simp [ResponseWriter.new, ResponseWriter.WriteHeader, ResponseWriter.Write, StatusCreated,
    bodyAllowedForStatus]

theorem getAsset_wroteHeader {F : Type} (env : Env F) (r : Request) :
    (getAsset env ResponseWriter.new r).w.wroteHeader = true := by
  unfold getAsset
  dsimp only
  split
  · rw [httpError_new _ _ (by decide)]
  · split
    · rw [httpError_new _ _ (by decide)]
    · rw [write_json_new]

theorem createAsset_wroteHeader {F : Type} (env : Env F) (r : Request) :
    (createAsset env ResponseWriter.new r).w.wroteHeader = true := by
  unfold createAsset
  split
  · rw [httpError_new _ _ (by decide)]
  · dsimp only
    split
    · rw [httpError_new _ _ (by decide)]
    · rw [write_created_new]

theorem assetsHandler_wroteHeader {F : Type} (env : Env F) (r : Request) :
    (assetsHandler env ResponseWriter.new r).w.wroteHeader = true := by
  unfold assetsHandler
  split
  · exact getAsset_wroteHeader env r
  · split
    · exact createAsset_wroteHeader env r
    · rw [httpError_new _ _ (by decide)]

/-- Every path of the handler sends a status itself, so the server adds nothing. -/
theorem serve_eq {F : Type} (env : Env F) (r : Request) :
    serve env r = assetsHandler env ResponseWriter.new r := by
  simp [serve, ResponseWriter.finish, assetsHandler_wroteHeader]

theorem serve_get {F : Type} (env : Env F) (r : Request) (hm : r.Method = "GET") :
    serve env r = getAsset env ResponseWriter.new r := by
  rw [serve_eq]; simp [assetsHandler, hm]

theorem serve_post {F : Type} (env : Env F) (r : Request) (hm : r.Method = "POST") :
    serve env r = createAsset env ResponseWriter.new r := by
  rw [serve_eq]; simp [assetsHandler, hm]


theorem errorHeader_contentType :
    Header.Get errorHeader "Content-Type" = "text/plain; charset=utf-8" := by
  decide

/-! ## The decoder reads one value -/

theorem readValueLoop_append (t : List Char) :
    ∀ (v : List Char) (s : Scanner) (k : Nat) (res : Except DecodeError Nat),
      readValueLoop s k v = .inl res → readValueLoop s k (v ++ t) = .inl res := by
  intro v
  induction v with
  | nil => intro s k res h; simp [readValueLoop] at h
  | cons c cs ih =>
    intro s k res h
    simp only [List.cons_append]
    unfold readValueLoop at h ⊢
    dsimp only at h ⊢
    revert h
    cases hop : (s.call c).2 <;> dsimp only <;> intro h
    all_goals (first | exact h | exact ih _ _ _ h | skip)
    all_goals
      by_cases hc : (stateEndValue (s.call c).1 ' ').2 = Opcode.scanEnd
      · rw [if_pos hc] at h ⊢
        exact h
      · rw [if_neg hc] at h ⊢
        exact ih _ _ _ h

theorem readValueLoop_le :
    ∀ (v : List Char) (s : Scanner) (k n : Nat),
      readValueLoop s k v = .inl (.ok n) → n ≤ k + v.length := by
  intro v
  induction v with
  | nil => intro s k n h; simp [readValueLoop] at h
  | cons c cs ih =>
    intro s k n h
    unfold readValueLoop at h
    dsimp only at h
    revert h
    cases hop : (s.call c).2 <;> dsimp only <;> intro h
    all_goals (first
      | (have h1 := ih _ _ _ h; simp only [List.length_cons]; omega)
      | (simp only [Sum.inl.injEq, Except.ok.injEq] at h; simp only [List.length_cons]; omega)
      | skip)
    · by_cases hc : (stateEndValue (s.call c).1 ' ').2 = Opcode.scanEnd
      · rw [if_pos hc] at h
        simp only [Sum.inl.injEq, Except.ok.injEq] at h
        simp only [List.length_cons]; omega
      · rw [if_neg hc] at h
        have h1 := ih _ _ _ h
        simp only [List.length_cons]; omega
    · by_cases hc : (stateEndValue (s.call c).1 ' ').2 = Opcode.scanEnd
      · rw [if_pos hc] at h
        simp only [Sum.inl.injEq, Except.ok.injEq] at h
        simp only [List.length_cons]; omega
      · rw [if_neg hc] at h
        have h1 := ih _ _ _ h
        simp only [List.length_cons]; omega
    · split at h <;> simp at h

/-- Once `readValue` has found the end of the first value inside a text, what is
appended to the text changes nothing for `Decode`. -/
theorem Decode_append {F : Type} (lib : JsonLib F) (v t : String)
    (h : firstValueClosed v = true) : Decode lib (v ++ t) = Decode lib v := by
  unfold firstValueClosed at h
  cases hl : readValueLoop Scanner.reset 0 v.toList with
  | inr s => rw [hl] at h; simp at h
  | inl res =>
    cases res with
    | error e => rw [hl] at h; simp at h
    | ok n =>
      have hle : n ≤ v.toList.length := by
        have := readValueLoop_le v.toList Scanner.reset 0 n hl
        omega
      have happ := readValueLoop_append t.toList v.toList Scanner.reset 0 (.ok n) hl
      have hv : readValue v.toList = .ok n := by simp only [readValue, hl]
      have hvt : readValue (v ++ t).toList = .ok n := by
        have : (v ++ t).toList = v.toList ++ t.toList := String.data_append v t
        simp only [readValue, this, happ]
      unfold Decode
      rw [hv, hvt]
      dsimp only
      have : (v ++ t).toList = v.toList ++ t.toList := String.data_append v t
      rw [this, List.take_append_of_le_length hle]

/-! ## The decoder refuses what is not a record -/

theorem keeps_error (s : Scanner) (c : Char) (context : String) : Keeps (s.error c context) :=
  Or.inl rfl

theorem keeps_stateEndTop (s : Scanner) (c : Char) : Keeps (stateEndTop s c) := by
  unfold stateEndTop
  split_ifs <;> exact Or.inr (Or.inl rfl)

theorem keeps_step (s : Scanner) (st : Step) (op : Opcode) (hi : s.Inv)
    (h1 : st ≠ .stateEndTop) (h2 : st ≠ .stateBeginValueOrEmpty)
    (h3 : st ≠ .stateBeginStringOrEmpty) (h4 : op ≠ .scanEndObject)
    (h5 : op ≠ .scanEndArray) : Keeps ({ s with step := st }, op) := by
  refine Or.inr (Or.inr ⟨⟨hi.1, ?_, ?_⟩, ?_⟩)
  · intro h; exact absurd h h1
  · intro h; rcases h with h | h
    · exact absurd h h2
    · exact absurd h h3
  · intro h; rcases h with h | h
    · exact absurd h h4
    · exact absurd h h5

theorem keeps_same (s : Scanner) (op : Opcode) (hi : s.Inv)
    (h4 : op ≠ .scanEndObject) (h5 : op ≠ .scanEndArray) : Keeps (s, op) := by
  refine Or.inr (Or.inr ⟨hi, ?_⟩)
  intro h; rcases h with h | h
  · exact absurd h h4
  · exact absurd h h5

theorem keeps_pop (s : Scanner) (op : Opcode) (hi : s.Inv) : Keeps (s.popParseState, op) := by
  refine Or.inr (Or.inr ⟨⟨?_, ?_, ?_⟩, ?_⟩)
  · unfold Scanner.popParseState; dsimp only; split_ifs <;> exact hi.1
  · unfold Scanner.popParseState; dsimp only; split_ifs <;> simp
  · unfold Scanner.popParseState; dsimp only; split_ifs <;> simp
  · intro _
    unfold Scanner.popParseState; dsimp only; split_ifs with h
    · simp
    · intro h2
      exact absurd (by rw [show s.parseState.tail = [] from h2]; rfl) h

theorem inv_setTop (s : Scanner) (p : ParseState) (hi : s.Inv) : (s.setTop p).Inv :=
  ⟨hi.1, hi.2.1, fun _ => by simp [Scanner.setTop]⟩

theorem keeps_plain (s : Scanner) (st : Step) (op : Opcode) (hi : s.Inv)
    (h : st ≠ .stateEndTop ∧ st ≠ .stateBeginValueOrEmpty ∧
      st ≠ .stateBeginStringOrEmpty ∧ op ≠ .scanEndObject ∧ op ≠ .scanEndArray) :
    Keeps ({ s with step := st }, op) :=
  keeps_step s st op hi h.1 h.2.1 h.2.2.1 h.2.2.2.1 h.2.2.2.2

theorem keeps_ite {p : Prop} [Decidable p] {x y : Scanner × Opcode} (hx : Keeps x)
    (hy : Keeps y) : Keeps (if p then x else y) := by
  split <;> assumption

theorem keeps_stateEndValue (s : Scanner) (c : Char) (hi : s.Inv) : Keeps (stateEndValue s c) := by
  unfold stateEndValue
  split
  · exact keeps_stateEndTop _ _
  · rename_i ps rest hps
    refine keeps_ite (keeps_plain s _ _ hi (by decide)) ?_
    cases ps
    · exact keeps_ite
        (keeps_plain _ _ _ (inv_setTop s _ hi) (by decide)) (keeps_error _ _ _)
    · exact keeps_ite
        (keeps_plain _ _ _ (inv_setTop s _ hi) (by decide))
        (keeps_ite (keeps_pop _ _ hi) (keeps_error _ _ _))
    · exact keeps_ite (keeps_plain s _ _ hi (by decide))
        (keeps_ite (keeps_pop _ _ hi) (keeps_error _ _ _))

theorem keeps_stateBeginString (s : Scanner) (c : Char) (hi : s.Inv) :
    Keeps (stateBeginString s c) :=
  (keeps_ite (keeps_same s _ hi (by decide) (by decide))
    (keeps_ite (keeps_plain s _ _ hi (by decide))
    (keeps_error _ _ _)))

theorem keeps_stateBeginStringOrEmpty (s : Scanner) (c : Char) (hi : s.Inv) :
    Keeps (stateBeginStringOrEmpty s c) :=
  (keeps_ite (keeps_same s _ hi (by decide) (by decide))
    (keeps_ite (keeps_stateEndValue _ _ (inv_setTop s _ hi))
    (keeps_stateBeginString _ _ hi)))

theorem keeps_push (s : Scanner) (c : Char) (p : ParseState) (st : Step) (op : Opcode)
    (hi : s.Inv) (h1 : st ≠ .stateEndTop) (h4 : op ≠ .scanEndObject)
    (h5 : op ≠ .scanEndArray) :
    Keeps (Scanner.pushParseState { s with step := st } c p op) := by
  refine keeps_ite (Or.inr (Or.inr ⟨⟨hi.1, ?_, ?_⟩, ?_⟩)) (keeps_error _ _ _)
  · intro h; exact absurd h h1
  · intro _; simp
  · intro h; rcases h with h | h
    · exact absurd h h4
    · exact absurd h h5

theorem keeps_stateBeginValue (s : Scanner) (c : Char) (hi : s.Inv) :
    Keeps (stateBeginValue s c) :=
  (keeps_ite (keeps_same s _ hi (by decide) (by decide))
    (keeps_ite (keeps_push s c _ _ _ hi (by decide) (by decide) (by decide))
    (keeps_ite (keeps_push s c _ _ _ hi (by decide) (by decide) (by decide))
    (keeps_ite (keeps_plain s _ _ hi (by decide))
    (keeps_ite (keeps_plain s _ _ hi (by decide))
    (keeps_ite (keeps_plain s _ _ hi (by decide))
    (keeps_ite (keeps_plain s _ _ hi (by decide))
    (keeps_ite (keeps_plain s _ _ hi (by decide))
    (keeps_ite (keeps_plain s _ _ hi (by decide))
    (keeps_ite (keeps_plain s _ _ hi (by decide))
    (keeps_error _ _ _)))))))))))

theorem keeps_stateBeginValueOrEmpty (s : Scanner) (c : Char) (hi : s.Inv) :
    Keeps (stateBeginValueOrEmpty s c) :=
  (keeps_ite (keeps_same s _ hi (by decide) (by decide))
    (keeps_ite (keeps_stateEndValue _ _ hi)
    (keeps_stateBeginValue _ _ hi)))

theorem keeps_stateInString (s : Scanner) (c : Char) (hi : s.Inv) :
    Keeps (stateInString s c) :=
  (keeps_ite (keeps_plain s _ _ hi (by decide))
    (keeps_ite (keeps_plain s _ _ hi (by decide))
    (keeps_ite (keeps_error _ _ _)
    (keeps_same s _ hi (by decide) (by decide)))))

theorem keeps_stateInStringEsc (s : Scanner) (c : Char) (hi : s.Inv) :
    Keeps (stateInStringEsc s c) :=
  (keeps_ite (keeps_plain s _ _ hi (by decide))
    (keeps_ite (keeps_plain s _ _ hi (by decide))
    (keeps_error _ _ _)))

theorem keeps_stateInStringEscHex (next : Step) (s : Scanner) (c : Char) (hi : s.Inv)
    (h1 : next ≠ .stateEndTop) (h2 : next ≠ .stateBeginValueOrEmpty)
    (h3 : next ≠ .stateBeginStringOrEmpty) : Keeps (stateInStringEscHex next s c) :=
  keeps_ite (keeps_step _ _ _ hi h1 h2 h3 (by decide) (by decide)) (keeps_error _ _ _)

theorem keeps_state0 (s : Scanner) (c : Char) (hi : s.Inv) : Keeps (state0 s c) :=
  (keeps_ite (keeps_plain s _ _ hi (by decide))
    (keeps_ite (keeps_plain s _ _ hi (by decide))
    (keeps_stateEndValue _ _ hi)))

theorem keeps_state1 (s : Scanner) (c : Char) (hi : s.Inv) : Keeps (state1 s c) :=
  (keeps_ite (keeps_plain s _ _ hi (by decide))
    (keeps_state0 _ _ hi))

theorem keeps_stateNeg (s : Scanner) (c : Char) (hi : s.Inv) : Keeps (stateNeg s c) :=
  (keeps_ite (keeps_plain s _ _ hi (by decide))
    (keeps_ite (keeps_plain s _ _ hi (by decide))
    (keeps_error _ _ _)))

theorem keeps_stateDot (s : Scanner) (c : Char) (hi : s.Inv) : Keeps (stateDot s c) :=
  (keeps_ite (keeps_plain s _ _ hi (by decide))
    (keeps_error _ _ _))

theorem keeps_stateDot0 (s : Scanner) (c : Char) (hi : s.Inv) : Keeps (stateDot0 s c) :=
  (keeps_ite (keeps_same s _ hi (by decide) (by decide))
    (keeps_ite (keeps_plain s _ _ hi (by decide))
    (keeps_stateEndValue _ _ hi)))

theorem keeps_stateESign (s : Scanner) (c : Char) (hi : s.Inv) : Keeps (stateESign s c) :=
  (keeps_ite (keeps_plain s _ _ hi (by decide))
    (keeps_error _ _ _))

theorem keeps_stateE (s : Scanner) (c : Char) (hi : s.Inv) : Keeps (stateE s c) :=
  (keeps_ite (keeps_plain s _ _ hi (by decide))
    (keeps_stateESign _ _ hi))

theorem keeps_stateE0 (s : Scanner) (c : Char) (hi : s.Inv) : Keeps (stateE0 s c) :=
  (keeps_ite (keeps_same s _ hi (by decide) (by decide))
    (keeps_stateEndValue _ _ hi))

theorem keeps_stateLiteral (want : Char) (next : Step) (lit : String) (s : Scanner) (c : Char)
    (hi : s.Inv) (h1 : next ≠ .stateEndTop) (h2 : next ≠ .stateBeginValueOrEmpty)
    (h3 : next ≠ .stateBeginStringOrEmpty) : Keeps (stateLiteral want next lit s c) :=
  keeps_ite (keeps_step _ _ _ hi h1 h2 h3 (by decide) (by decide)) (keeps_error _ _ _)

theorem keeps_call (s : Scanner) (c : Char) (hi : s.Inv) : Keeps (s.call c) := by
  unfold Scanner.call
  split
  · exact keeps_stateBeginValueOrEmpty _ _ hi
  · exact keeps_stateBeginValue _ _ hi
  · exact keeps_stateBeginStringOrEmpty _ _ hi
  · exact keeps_stateBeginString _ _ hi
  · exact keeps_stateEndValue _ _ hi
  · exact keeps_stateEndTop _ _
  · exact keeps_stateInString _ _ hi
  · exact keeps_stateInStringEsc _ _ hi
  · exact keeps_stateInStringEscHex _ _ _ hi (by decide) (by decide) (by decide)
  · exact keeps_stateInStringEscHex _ _ _ hi (by decide) (by decide) (by decide)
  · exact keeps_stateInStringEscHex _ _ _ hi (by decide) (by decide) (by decide)
  · exact keeps_stateInStringEscHex _ _ _ hi (by decide) (by decide) (by decide)
  · exact keeps_stateNeg _ _ hi
  · exact keeps_state1 _ _ hi
  · exact keeps_state0 _ _ hi
  · exact keeps_stateDot _ _ hi
  · exact keeps_stateDot0 _ _ hi
  · exact keeps_stateE _ _ hi
  · exact keeps_stateESign _ _ hi
  · exact keeps_stateE0 _ _ hi
  · exact keeps_stateLiteral _ _ _ _ _ hi (by decide) (by decide) (by decide)
  · exact keeps_stateLiteral _ _ _ _ _ hi (by decide) (by decide) (by decide)
  · exact keeps_stateLiteral _ _ _ _ _ hi (by decide) (by decide) (by decide)
  · exact keeps_stateLiteral _ _ _ _ _ hi (by decide) (by decide) (by decide)
  · exact keeps_stateLiteral _ _ _ _ _ hi (by decide) (by decide) (by decide)
  · exact keeps_stateLiteral _ _ _ _ _ hi (by decide) (by decide) (by decide)
  · exact keeps_stateLiteral _ _ _ _ _ hi (by decide) (by decide) (by decide)
  · exact keeps_stateLiteral _ _ _ _ _ hi (by decide) (by decide) (by decide)
  · exact keeps_stateLiteral _ _ _ _ _ hi (by decide) (by decide) (by decide)
  · exact keeps_stateLiteral _ _ _ _ _ hi (by decide) (by decide) (by decide)
  · exact Or.inl rfl


theorem noEnd_ite {p : Prop} [Decidable p] {x y : Scanner × Opcode} (hx : NoEnd x)
    (hy : NoEnd y) : NoEnd (if p then x else y) := by
  split <;> assumption

theorem noEnd_mk (s : Scanner) (op : Opcode) (h : op ≠ .scanEnd) : NoEnd (s, op) := h

theorem noEnd_error (s : Scanner) (c : Char) (context : String) : NoEnd (s.error c context) := by
  intro h; cases h

theorem noEnd_push (s : Scanner) (c : Char) (p : ParseState) (op : Opcode) (h : op ≠ .scanEnd) :
    NoEnd (s.pushParseState c p op) :=
  noEnd_ite (noEnd_mk _ _ h) (noEnd_error _ _ _)

theorem noEnd_stateEndValue (s : Scanner) (c : Char) (h : s.parseState ≠ []) :
    NoEnd (stateEndValue s c) := by
  unfold stateEndValue
  split
  · rename_i hps; exact absurd hps h
  · rename_i ps rest hps
    refine noEnd_ite (noEnd_mk _ _ (by decide)) ?_
    cases ps
    · exact noEnd_ite (noEnd_mk _ _ (by decide)) (noEnd_error _ _ _)
    · exact noEnd_ite (noEnd_mk _ _ (by decide))
        (noEnd_ite (noEnd_mk _ _ (by decide)) (noEnd_error _ _ _))
    · exact noEnd_ite (noEnd_mk _ _ (by decide))
        (noEnd_ite (noEnd_mk _ _ (by decide)) (noEnd_error _ _ _))

theorem noEnd_stateBeginString (s : Scanner) (c : Char) : NoEnd (stateBeginString s c) :=
  (noEnd_ite (noEnd_mk _ _ (by decide))
    (noEnd_ite (noEnd_mk _ _ (by decide))
    (noEnd_error _ _ _)))

theorem noEnd_stateBeginStringOrEmpty (s : Scanner) (c : Char) :
    NoEnd (stateBeginStringOrEmpty s c) :=
  (noEnd_ite (noEnd_mk _ _ (by decide))
    (noEnd_ite (noEnd_stateEndValue _ _ (by simp [Scanner.setTop]))
    (noEnd_stateBeginString _ _)))

theorem noEnd_stateBeginValue (s : Scanner) (c : Char) : NoEnd (stateBeginValue s c) :=
  (noEnd_ite (noEnd_mk _ _ (by decide))
    (noEnd_ite (noEnd_push _ _ _ _ (by decide))
    (noEnd_ite (noEnd_push _ _ _ _ (by decide))
    (noEnd_ite (noEnd_mk _ _ (by decide))
    (noEnd_ite (noEnd_mk _ _ (by decide))
    (noEnd_ite (noEnd_mk _ _ (by decide))
    (noEnd_ite (noEnd_mk _ _ (by decide))
    (noEnd_ite (noEnd_mk _ _ (by decide))
    (noEnd_ite (noEnd_mk _ _ (by decide))
    (noEnd_ite (noEnd_mk _ _ (by decide))
    (noEnd_error _ _ _)))))))))))

theorem noEnd_stateBeginValueOrEmpty (s : Scanner) (c : Char) (h : s.parseState ≠ []) :
    NoEnd (stateBeginValueOrEmpty s c) :=
  (noEnd_ite (noEnd_mk _ _ (by decide))
    (noEnd_ite (noEnd_stateEndValue _ _ h)
    (noEnd_stateBeginValue _ _)))

theorem noEnd_stateInString (s : Scanner) (c : Char) : NoEnd (stateInString s c) :=
  (noEnd_ite (noEnd_mk _ _ (by decide))
    (noEnd_ite (noEnd_mk _ _ (by decide))
    (noEnd_ite (noEnd_error _ _ _)
    (noEnd_mk _ _ (by decide)))))

theorem noEnd_stateInStringEsc (s : Scanner) (c : Char) : NoEnd (stateInStringEsc s c) :=
  (noEnd_ite (noEnd_mk _ _ (by decide))
    (noEnd_ite (noEnd_mk _ _ (by decide))
    (noEnd_error _ _ _)))

theorem noEnd_stateInStringEscHex (next : Step) (s : Scanner) (c : Char) :
    NoEnd (stateInStringEscHex next s c) :=
  (noEnd_ite (noEnd_mk _ _ (by decide))
    (noEnd_error _ _ _))

theorem noEnd_stateNeg (s : Scanner) (c : Char) : NoEnd (stateNeg s c) :=
  (noEnd_ite (noEnd_mk _ _ (by decide))
    (noEnd_ite (noEnd_mk _ _ (by decide))
    (noEnd_error _ _ _)))

theorem noEnd_stateDot (s : Scanner) (c : Char) : NoEnd (stateDot s c) :=
  (noEnd_ite (noEnd_mk _ _ (by decide))
    (noEnd_error _ _ _))

theorem noEnd_stateESign (s : Scanner) (c : Char) : NoEnd (stateESign s c) :=
  (noEnd_ite (noEnd_mk _ _ (by decide))
    (noEnd_error _ _ _))

theorem noEnd_stateE (s : Scanner) (c : Char) : NoEnd (stateE s c) :=
  (noEnd_ite (noEnd_mk _ _ (by decide))
    (noEnd_stateESign _ _))

theorem noEnd_stateLiteral (want : Char) (next : Step) (lit : String) (s : Scanner) (c : Char) :
    NoEnd (stateLiteral want next lit s c) :=
  (noEnd_ite (noEnd_mk _ _ (by decide))
    (noEnd_error _ _ _))

theorem noEnd_state0 (s : Scanner) (c : Char) (h : s.parseState ≠ []) : NoEnd (state0 s c) :=
  (noEnd_ite (noEnd_mk _ _ (by decide))
    (noEnd_ite (noEnd_mk _ _ (by decide))
    (noEnd_stateEndValue _ _ h)))

theorem noEnd_state1 (s : Scanner) (c : Char) (h : s.parseState ≠ []) : NoEnd (state1 s c) :=
  (noEnd_ite (noEnd_mk _ _ (by decide))
    (noEnd_state0 _ _ h))

theorem noEnd_stateDot0 (s : Scanner) (c : Char) (h : s.parseState ≠ []) :
    NoEnd (stateDot0 s c) :=
  (noEnd_ite (noEnd_mk _ _ (by decide))
    (noEnd_ite (noEnd_mk _ _ (by decide))
    (noEnd_stateEndValue _ _ h)))

theorem noEnd_stateE0 (s : Scanner) (c : Char) (h : s.parseState ≠ []) : NoEnd (stateE0 s c) :=
  (noEnd_ite (noEnd_mk _ _ (by decide))
    (noEnd_stateEndValue _ _ h))

/-- A step that announces the end of the top-level value would do so on a space
as well, and then the scanner has `endTop` set. -/
theorem call_scanEnd (s : Scanner) (c : Char) (hi : s.Inv) (h : (s.call c).2 = .scanEnd) :
    (s.call ' ').1.endTop = true := by
  obtain ⟨step, ps, err, endTop⟩ := s
  obtain ⟨-, ht, hp⟩ := hi
  simp only at ht hp
  cases step
  case stateEndTop =>
    simp [Scanner.call, stateEndTop, isSpace, ht]
  case stateEndValue =>
    cases ps with
    | nil => simp [Scanner.call, stateEndValue, stateEndTop, isSpace]
    | cons p rest => exact absurd h (noEnd_stateEndValue _ _ (by simp))
  case state1 =>
    cases ps with
    | nil =>
      simp [Scanner.call, state1, state0, stateEndValue, stateEndTop, isSpace, isDigit09]
    | cons p rest => exact absurd h (noEnd_state1 _ _ (by simp))
  case state0 =>
    cases ps with
    | nil => simp [Scanner.call, state0, stateEndValue, stateEndTop, isSpace]
    | cons p rest => exact absurd h (noEnd_state0 _ _ (by simp))
  case stateDot0 =>
    cases ps with
    | nil =>
      simp [Scanner.call, stateDot0, stateEndValue, stateEndTop, isSpace, isDigit09]
    | cons p rest => exact absurd h (noEnd_stateDot0 _ _ (by simp))
  case stateE0 =>
    cases ps with
    | nil =>
      simp [Scanner.call, stateE0, stateEndValue, stateEndTop, isSpace, isDigit09]
    | cons p rest => exact absurd h (noEnd_stateE0 _ _ (by simp))
  case stateBeginValueOrEmpty =>
    exact absurd h (noEnd_stateBeginValueOrEmpty _ _ (hp (Or.inl rfl)))
  case stateBeginStringOrEmpty => exact absurd h (noEnd_stateBeginStringOrEmpty _ _)
  case stateBeginValue => exact absurd h (noEnd_stateBeginValue _ _)
  case stateBeginString => exact absurd h (noEnd_stateBeginString _ _)
  case stateInString => exact absurd h (noEnd_stateInString _ _)
  case stateInStringEsc => exact absurd h (noEnd_stateInStringEsc _ _)
  case stateInStringEscU => exact absurd h (noEnd_stateInStringEscHex _ _ _)
  case stateInStringEscU1 => exact absurd h (noEnd_stateInStringEscHex _ _ _)
  case stateInStringEscU12 => exact absurd h (noEnd_stateInStringEscHex _ _ _)
  case stateInStringEscU123 => exact absurd h (noEnd_stateInStringEscHex _ _ _)
  case stateNeg => exact absurd h (noEnd_stateNeg _ _)
  case stateDot => exact absurd h (noEnd_stateDot _ _)
  case stateE => exact absurd h (noEnd_stateE _ _)
  case stateESign => exact absurd h (noEnd_stateESign _ _)
  case stateError => exact absurd h (by intro h; cases h)
  all_goals exact absurd h (noEnd_stateLiteral _ _ _ _ _)


theorem inv_reset : Scanner.reset.Inv := by
  refine ⟨rfl, ?_, ?_⟩
  · intro h; cases h
  · intro h; rcases h with h | h <;> cases h

theorem inv_of_keeps (s : Scanner) (c : Char) (hi : s.Inv) (h1 : (s.call c).2 ≠ .scanError)
    (h2 : (s.call c).2 ≠ .scanEnd) : (s.call c).1.Inv := by
  rcases keeps_call s c hi with h | h | h
  · exact absurd h h1
  · exact absurd h h2
  · exact h.1

theorem scanAll_cons (s : Scanner) (c : Char) (cs : List Char) (k n : Nat)
    (h1 : (s.call c).2 ≠ .scanError) (hk : k + 1 ≤ n) :
    scanAll s ((c :: cs).take (n - k)) = scanAll (s.call c).1 (cs.take (n - (k + 1))) := by
  have hn : n - k = (n - (k + 1)) + 1 := by omega
  rw [hn, List.take_succ_cons]
  simp only [scanAll, h1, if_false]

theorem readValueLoop_inr :
    ∀ (v : List Char) (s : Scanner) (k : Nat) (s1 : Scanner), s.Inv →
      readValueLoop s k v = .inr s1 → scanAll s v = some s1 ∧ s1.Inv := by
  intro v
  induction v with
  | nil =>
    intro s k s1 hi h
    simp only [readValueLoop, Sum.inr.injEq] at h
    subst h
    exact ⟨rfl, hi⟩
  | cons c cs ih =>
    intro s k s1 hi h
    unfold readValueLoop at h
    dsimp only at h
    revert h
    cases hop : (s.call c).2 <;> dsimp only <;> intro h
    case scanEnd => cases h
    case scanError => split at h <;> cases h
    case scanEndObject =>
      have hinv := inv_of_keeps s c hi (by rw [hop]; decide) (by rw [hop]; decide)
      split at h
      · cases h
      · have := ih _ _ _ hinv h
        refine ⟨?_, this.2⟩
        simp only [scanAll, hop]
        exact this.1
    case scanEndArray =>
      have hinv := inv_of_keeps s c hi (by rw [hop]; decide) (by rw [hop]; decide)
      split at h
      · cases h
      · have := ih _ _ _ hinv h
        refine ⟨?_, this.2⟩
        simp only [scanAll, hop]
        exact this.1
    all_goals
      have hinv := inv_of_keeps s c hi (by rw [hop]; decide) (by rw [hop]; decide)
      have := ih _ _ _ hinv h
      refine ⟨?_, this.2⟩
      simp only [scanAll, hop]
      exact this.1


theorem readValueLoop_ok :
    ∀ (v : List Char) (s : Scanner) (k n : Nat), s.Inv →
      readValueLoop s k v = .inl (.ok n) →
        k ≤ n ∧ ∃ s1, scanAll s (v.take (n - k)) = some s1 ∧ s1.err = none ∧
          (s1.endTop || (s1.call ' ').1.endTop) = true := by
  intro v
  induction v with
  | nil => intro s k n _ h; simp [readValueLoop] at h
  | cons c cs ih =>
    intro s k n hi h
    unfold readValueLoop at h
    dsimp only at h
    revert h
    cases hop : (s.call c).2 <;> dsimp only <;> intro h
    case scanEnd =>
      simp only [Sum.inl.injEq, Except.ok.injEq] at h
      subst h
      refine ⟨le_refl _, s, by simp [scanAll], hi.1, ?_⟩
      rw [call_scanEnd s c hi hop, Bool.or_true]
    case scanError => split at h <;> simp at h
    case scanEndObject =>
      have hne : (s.call c).2 ≠ .scanError := by rw [hop]; decide
      have hinv := inv_of_keeps s c hi hne (by rw [hop]; decide)
      split at h
      · rename_i hc
        simp only [Sum.inl.injEq, Except.ok.injEq] at h
        subst h
        refine ⟨Nat.le_succ _, (s.call c).1, ?_, hinv.1, ?_⟩
        · rw [scanAll_cons s c cs k (k + 1) hne (le_refl _)]
          simp [scanAll]
        · rcases keeps_call s c hi with h1 | h1 | h1
          · exact absurd h1 hne
          · rw [hop] at h1; cases h1
          · have hps : (s.call c).1.parseState = [] := by
              by_contra hps
              exact noEnd_stateEndValue _ ' ' hps hc
            rw [h1.2 (Or.inl hop) hps, Bool.true_or]
      · obtain ⟨hk, s1, h1, h2⟩ := ih _ _ _ hinv h
        exact ⟨by omega, s1, by rw [scanAll_cons s c cs k n hne hk]; exact h1, h2⟩
    case scanEndArray =>
      have hne : (s.call c).2 ≠ .scanError := by rw [hop]; decide
      have hinv := inv_of_keeps s c hi hne (by rw [hop]; decide)
      split at h
      · rename_i hc
        simp only [Sum.inl.injEq, Except.ok.injEq] at h
        subst h
        refine ⟨Nat.le_succ _, (s.call c).1, ?_, hinv.1, ?_⟩
        · rw [scanAll_cons s c cs k (k + 1) hne (le_refl _)]
          simp [scanAll]
        · rcases keeps_call s c hi with h1 | h1 | h1
          · exact absurd h1 hne
          · rw [hop] at h1; cases h1
          · have hps : (s.call c).1.parseState = [] := by
              by_contra hps
              exact noEnd_stateEndValue _ ' ' hps hc
            rw [h1.2 (Or.inr hop) hps, Bool.true_or]
      · obtain ⟨hk, s1, h1, h2⟩ := ih _ _ _ hinv h
        exact ⟨by omega, s1, by rw [scanAll_cons s c cs k n hne hk]; exact h1, h2⟩
    all_goals
      have hne : (s.call c).2 ≠ .scanError := by rw [hop]; decide
      have hinv := inv_of_keeps s c hi hne (by rw [hop]; decide)
      obtain ⟨hk, s1, h1, h2⟩ := ih _ _ _ hinv h
      exact ⟨by omega, s1, by rw [scanAll_cons s c cs k n hne hk]; exact h1, h2⟩

/-- The text `readValue` hands to the second pass is a valid JSON document. -/
theorem readValue_valid (body : List Char) (n : Nat) (h : readValue body = .ok n) :
    Valid (String.mk (body.take n)) = true := by
  unfold readValue at h
  cases hl : readValueLoop Scanner.reset 0 body with
  | inl res =>
    rw [hl] at h
    dsimp only at h
    subst h
    obtain ⟨-, s1, h1, h2, h3⟩ := readValueLoop_ok body Scanner.reset 0 n inv_reset hl
    simp only [Nat.sub_zero] at h1
    show (match scanAll Scanner.reset (List.take n body) with
      | none => false
      | some s => match s.err with
        | some _ => false
        | none => s.endTop || (s.call ' ').1.endTop) = true
    rw [h1]
    dsimp only
    rw [h2]
    exact h3
  | inr s =>
    rw [hl] at h
    dsimp only at h
    obtain ⟨h1, hi⟩ := readValueLoop_inr body Scanner.reset 0 s inv_reset hl
    split at h
    · rename_i hc
      simp only [Except.ok.injEq] at h
      subst h
      rw [List.take_length]
      show (match scanAll Scanner.reset body with
        | none => false
        | some s => match s.err with
          | some _ => false
          | none => s.endTop || (s.call ' ').1.endTop) = true
      rw [h1]
      dsimp only
      rw [hi.1]
      dsimp only
      rw [call_scanEnd s ' ' hi hc, Bool.or_true]
    · split at h <;> cases h

theorem storeField_none {F : Type} (lib : JsonLib F) (a : Asset F) (f : Field) (v : JValue) :
    (storeField lib a f v).2 = none ↔ fits lib f v = true := by
  cases f <;> cases v <;>
    simp [storeField, storeString, storeFloat, fits, Field.isFloat, JValue.kind]
  all_goals
    rename_i literal
    cases lib.ParseFloat literal <;> simp

theorem storeMembers_none {F : Type} (lib : JsonLib F) :
    ∀ (members : List (String × JValue)) (a : Asset F) (saved : Option DecodeError),
      (storeMembers lib a saved members).2 = none ↔
        saved = none ∧ members.all (memberFits lib) = true := by
  intro members
  induction members with
  | nil => intro a saved; simp [storeMembers]
  | cons kv rest ih =>
    intro a saved
    obtain ⟨key, v⟩ := kv
    unfold storeMembers
    cases hf : findField lib.foldRune key with
    | none =>
      dsimp only
      rw [ih]
      simp [memberFits, hf]
    | some f =>
      dsimp only
      rw [ih]
      cases saved with
      | some e => simp [saveError]
      | none =>
        simp only [saveError, storeField_none, List.all_cons, memberFits, hf, Bool.and_eq_true,
          true_and]


theorem readValue_le (body : List Char) (n : Nat) (h : readValue body = .ok n) :
    n ≤ body.length := by
  unfold readValue at h
  cases hl : readValueLoop Scanner.reset 0 body with
  | inl res =>
    rw [hl] at h
    dsimp only at h
    subst h
    have := readValueLoop_le body Scanner.reset 0 n hl
    omega
  | inr s =>
    rw [hl] at h
    dsimp only at h
    split at h
    · simp only [Except.ok.injEq] at h
      omega
    · split at h <;> cases h

/-- A body no initial segment of which is a valid JSON document is refused by
`readValue`, and so by `Decode`. -/
theorem Decode_error_of_no_valid_start {F : Type} (lib : JsonLib F) (body : String)
    (h : hasValidStart body = false) : ∃ e, Decode lib body = .error e := by
  unfold Decode
  cases hr : readValue body.toList with
  | error e => exact ⟨e, rfl⟩
  | ok n =>
    exfalso
    have hv := readValue_valid body.toList n hr
    have hle := readValue_le body.toList n hr
    have : hasValidStart body = true := by
      unfold hasValidStart
      rw [List.any_eq_true]
      exact ⟨n, List.mem_range.mpr (by omega), hv⟩
    rw [h] at this
    cases this

theorem unmarshal_ok_iff {F : Type} (lib : JsonLib F) (text : List Char) (v : JValue)
    (rest : List Char) (h : parseValue (text.length + 1) text = some (v, rest)) :
    (∃ a, unmarshal lib text = .ok a) ↔ recordShape lib v = true := by
  unfold unmarshal
  rw [h]
  cases v with
  | null => simp [recordShape]
  | object members =>
    dsimp only
    have hm := storeMembers_none lib members (zeroAsset lib) none
    cases hs : storeMembers lib (zeroAsset lib) none members with
    | mk a saved =>
      rw [hs] at hm
      cases saved with
      | none =>
        have hall : members.all (memberFits lib) = true := (hm.mp rfl).2
        simp only [recordShape, hall, iff_true]
        exact ⟨a, rfl⟩
      | some e =>
        have hall : ¬ members.all (memberFits lib) = true := fun hc => by
          have := hm.mpr ⟨rfl, hc⟩
          cases this
        simp only [recordShape, hall]
        constructor
        · rintro ⟨a1, h1⟩
          cases h1
        · intro h1
          cases h1
  | bool b => simp [recordShape]
  | number l => simp [recordShape]
  | string s => simp [recordShape]
  | array xs => simp [recordShape]

/-- Go's decoder accepts a body exactly when its first value has the Account
Record shape. -/
theorem Decode_ok_iff_shape {F : Type} (lib : JsonLib F) (body : String) (b : Bool)
    (h : (firstValue body).map (recordShape lib) = some b) :
    (∃ a, Decode lib body = .ok a) ↔ b = true := by
  unfold firstValue at h
  unfold Decode
  cases hr : readValue body.toList with
  | error e => rw [hr] at h; simp at h
  | ok n =>
    rw [hr] at h
    dsimp only at h ⊢
    cases hp : parseValue ((body.toList.take n).length + 1) (body.toList.take n) with
    | none => rw [hp] at h; simp at h
    | some r =>
      obtain ⟨v, rest⟩ := r
      rw [hp] at h
      simp only [Option.map_some', Option.some.injEq] at h
      rw [unmarshal_ok_iff lib _ v rest hp, h]


/-! ## The three ways out of each handler -/

theorem getAsset_missing {F : Type} (env : Env F) (r : Request)
    (h : Values.Get r.Query "dealerid" = "") :
    getAsset env ResponseWriter.new r =
      { w := { header := errorHeader, wroteHeader := true, status := 400, sent := errorHeader,
               body := "dealerid query parameter is required\n" },
        calls := [] } := by
  simp [getAsset, h, httpError_new, StatusBadRequest, bodyAllowedForStatus]

theorem getAsset_failed {F : Type} (env : Env F) (r : Request) (e : String)
    (hne : Values.Get r.Query "dealerid" ≠ "")
    (he : env.EvaluateTransaction "ReadAsset" [Values.Get r.Query "dealerid"] = .error e) :
    getAsset env ResponseWriter.new r =
      { w := { header := errorHeader, wroteHeader := true, status := 500, sent := errorHeader,
               body := "Failed to evaluate transaction: " ++ e ++ "\n" },
        calls := [{ kind := .Evaluate, name := "ReadAsset",
                    args := [Values.Get r.Query "dealerid"], result := .error e }] } := by
  simp [getAsset, hne, he, httpError_new, StatusInternalServerError, bodyAllowedForStatus]

theorem getAsset_found {F : Type} (env : Env F) (r : Request) (b : String)
    (hne : Values.Get r.Query "dealerid" ≠ "")
    (hb : env.EvaluateTransaction "ReadAsset" [Values.Get r.Query "dealerid"] = .ok b) :
    getAsset env ResponseWriter.new r =
      { w := { header := [("Content-Type", "application/json")], wroteHeader := true,
               status := 200, sent := [("Content-Type", "application/json")], body := b },
        calls := [{ kind := .Evaluate, name := "ReadAsset",
                    args := [Values.Get r.Query "dealerid"], result := .ok b }] } := by
  simp [getAsset, hne, hb, write_json_new]

theorem createAsset_rejected {F : Type} (env : Env F) (r : Request) (e : String)
    (hd : env.Decode r.Body = .error e) :
    createAsset env ResponseWriter.new r =
      { w := { header := errorHeader, wroteHeader := true, status := 400, sent := errorHeader,
               body := e ++ "\n" },
        calls := [] } := by
  simp [createAsset, hd, httpError_new, StatusBadRequest, bodyAllowedForStatus]

theorem createAsset_failed {F : Type} (env : Env F) (r : Request) (a : Asset F) (e : String)
    (hd : env.Decode r.Body = .ok a)
    (he : env.SubmitTransaction "CreateAsset"
      [a.DEALERID, a.MSISDN, a.MPIN, env.Sprintf_f a.BALANCE, a.STATUS,
       env.Sprintf_f a.TRANSAMOUNT, a.TRANSTYPE, a.REMARKS] = .error e) :
    createAsset env ResponseWriter.new r =
      { w := { header := errorHeader, wroteHeader := true, status := 500, sent := errorHeader,
               body := "Failed to submit transaction: " ++ e ++ "\n" },
        calls := [{ kind := .Submit, name := "CreateAsset",
                    args := [a.DEALERID, a.MSISDN, a.MPIN, env.Sprintf_f a.BALANCE, a.STATUS,
                             env.Sprintf_f a.TRANSAMOUNT, a.TRANSTYPE, a.REMARKS],
                    result := .error e }] } := by
  simp [createAsset, hd, he, httpError_new, StatusInternalServerError, bodyAllowedForStatus]

theorem createAsset_created {F : Type} (env : Env F) (r : Request) (a : Asset F) (b : String)
    (hd : env.Decode r.Body = .ok a)
    (hb : env.SubmitTransaction "CreateAsset"
      [a.DEALERID, a.MSISDN, a.MPIN, env.Sprintf_f a.BALANCE, a.STATUS,
       env.Sprintf_f a.TRANSAMOUNT, a.TRANSTYPE, a.REMARKS] = .ok b) :
    createAsset env ResponseWriter.new r =
      { w := { header := [], wroteHeader := true, status := 201, sent := [],
               body := "Asset " ++ a.DEALERID ++ " created successfully" },
        calls := [{ kind := .Submit, name := "CreateAsset",
                    args := [a.DEALERID, a.MSISDN, a.MPIN, env.Sprintf_f a.BALANCE, a.STATUS,
                             env.Sprintf_f a.TRANSAMOUNT, a.TRANSTYPE, a.REMARKS],
                    result := .ok b }] } := by
  simp [createAsset, hd, hb, write_created_new]

theorem serve_other {F : Type} (env : Env F) (r : Request) (hg : r.Method ≠ "GET")
    (hp : r.Method ≠ "POST") :
    serve env r =
      { w := { header := errorHeader, wroteHeader := true, status := 405, sent := errorHeader,
               body := "Method not allowed\n" },
        calls := [] } := by
  rw [serve_eq]
  simp [assetsHandler, hg, hp, httpError_new, StatusMethodNotAllowed, bodyAllowedForStatus]

/-! ## The claims about the HTTP endpoint -/

/-- C1: a POST request whose body decodes to a record `a` makes exactly one call
on the contract: `SubmitTransaction` with the name `CreateAsset` and the eight
arguments DEALERID, MSISDN, MPIN, `%f` of BALANCE, STATUS, `%f` of TRANSAMOUNT,
TRANSTYPE, REMARKS in this order, the six strings unchanged. This holds for
`createAsset` on any writer, and so for the request served on `/assets`. -/
theorem createAsset_submits_eight_fields {F : Type} (env : Env F) (r : Request) (a : Asset F)
    (hm : r.Method = "POST") (hd : env.Decode r.Body = .ok a) :
    (∀ w : ResponseWriter, (createAsset env w r).calls =
      [{ kind := .Submit, name := "CreateAsset",
         args := [a.DEALERID, a.MSISDN, a.MPIN, env.Sprintf_f a.BALANCE, a.STATUS,
                  env.Sprintf_f a.TRANSAMOUNT, a.TRANSTYPE, a.REMARKS],
         result := env.SubmitTransaction "CreateAsset"
           [a.DEALERID, a.MSISDN, a.MPIN, env.Sprintf_f a.BALANCE, a.STATUS,
            env.Sprintf_f a.TRANSAMOUNT, a.TRANSTYPE, a.REMARKS] }]) ∧
    (serve env r).calls =
      [{ kind := .Submit, name := "CreateAsset",
         args := [a.DEALERID, a.MSISDN, a.MPIN, env.Sprintf_f a.BALANCE, a.STATUS,
                  env.Sprintf_f a.TRANSAMOUNT, a.TRANSTYPE, a.REMARKS],
         result := env.SubmitTransaction "CreateAsset"
           [a.DEALERID, a.MSISDN, a.MPIN, env.Sprintf_f a.BALANCE, a.STATUS,
            env.Sprintf_f a.TRANSAMOUNT, a.TRANSTYPE, a.REMARKS] }] := by
  have key : ∀ w : ResponseWriter, (createAsset env w r).calls =
      [{ kind := .Submit, name := "CreateAsset",
         args := [a.DEALERID, a.MSISDN, a.MPIN, env.Sprintf_f a.BALANCE, a.STATUS,
                  env.Sprintf_f a.TRANSAMOUNT, a.TRANSTYPE, a.REMARKS],
         result := env.SubmitTransaction "CreateAsset"
           [a.DEALERID, a.MSISDN, a.MPIN, env.Sprintf_f a.BALANCE, a.STATUS,
            env.Sprintf_f a.TRANSAMOUNT, a.TRANSTYPE, a.REMARKS] }] := by
    intro w
    unfold createAsset
    rw [hd]
    dsimp only
    split <;> rfl
  exact ⟨key, by rw [serve_post env r hm]; exact key _⟩

set_option maxRecDepth 100000 in
/-- C1 at a request: the record of dealer `D1` posted to a ledger that accepts it. -/
theorem createAsset_submits_eight_fields_witness :
    (serve okLedger { Method := "POST", Query := noQuery, Body := recordBody }).calls =
      [{ kind := .Submit, name := "CreateAsset",
         args := ["D1", "0300", "1234", "100.000000", "ACTIVE", "25.000000", "CREDIT", "first"],
         result := .ok "" }] :=
  (createAsset_submits_eight_fields okLedger
    { Method := "POST", Query := noQuery, Body := recordBody } recordD1 rfl (by decide)).2

/-- C2: a GET request whose `dealerid` value `d` is not empty, on a ledger that
answers the evaluation with the bytes `b`, calls the contract exactly once, as
`EvaluateTransaction("ReadAsset", d)`, and the response has status 200, the
content type `application/json` and the body `b`. -/
theorem getAsset_returns_ledger_bytes {F : Type} (env : Env F) (r : Request) (d b : String)
    (hm : r.Method = "GET") (hd : Values.Get r.Query "dealerid" = d) (hne : d ≠ "")
    (hb : env.EvaluateTransaction "ReadAsset" [d] = .ok b) :
    (serve env r).calls =
      [{ kind := .Evaluate, name := "ReadAsset", args := [d], result := .ok b }] ∧
    (serve env r).w.status = 200 ∧
    Header.Get (serve env r).w.sent "Content-Type" = "application/json" ∧
    (serve env r).w.body = b := by
  subst hd
  rw [serve_get env r hm, getAsset_found env r b hne hb]
  exact ⟨rfl, rfl, by simp [Header.Get], rfl⟩

/-- C2 at a request: dealer `D1`, whom the ledger knows. -/
theorem getAsset_returns_ledger_bytes_witness :
    (serve okLedger { Method := "GET", Query := queryD1, Body := "" }).w.status = 200 ∧
    (serve okLedger { Method := "GET", Query := queryD1, Body := "" }).w.body =
      "\x7b\"DEALERID\":\"D1\",\"BALANCE\":100\x7d" :=
  have h := getAsset_returns_ledger_bytes okLedger
    { Method := "GET", Query := queryD1, Body := "" } "D1"
    "\x7b\"DEALERID\":\"D1\",\"BALANCE\":100\x7d" rfl (by decide) (by decide) (by decide)
  ⟨h.2.1, h.2.2.2⟩

/-- C3: a GET request with no `dealerid` parameter, or whose first `dealerid` value
is the empty string, is answered with status 400 and makes no call on the
contract, whatever the ledger is. -/
theorem getAsset_requires_dealerid {F : Type} (env : Env F) (r : Request)
    (hm : r.Method = "GET")
    (h : r.Query "dealerid" = [] ∨ (r.Query "dealerid").head? = some "") :
    (serve env r).w.status = 400 ∧ (serve env r).calls = [] := by
  have hget : Values.Get r.Query "dealerid" = "" := by
    unfold Values.Get
    rcases h with h | h
    · rw [h]
    · cases hq : r.Query "dealerid" with
      | nil => rfl
      | cons x xs =>
        rw [hq] at h
        simp only [List.head?_cons, Option.some.injEq] at h
        exact h
  rw [serve_get env r hm, getAsset_missing env r hget]
  exact ⟨rfl, rfl⟩

/-- C3 at a request: no query at all, on a ledger that would have answered. -/
theorem getAsset_requires_dealerid_witness :
    (serve okLedger { Method := "GET", Query := noQuery, Body := "" }).w.status = 400 ∧
    (serve okLedger { Method := "GET", Query := noQuery, Body := "" }).calls = [] :=
  getAsset_requires_dealerid okLedger { Method := "GET", Query := noQuery, Body := "" } rfl
    (Or.inl rfl)

/-- C6: a request to `/assets` whose method is neither GET nor POST is answered
with status 405 and makes no call on the contract, whatever its query and body. -/
theorem assetsHandler_other_method {F : Type} (env : Env F) (r : Request)
    (hg : r.Method ≠ "GET") (hp : r.Method ≠ "POST") :
    (serve env r).w.status = 405 ∧ (serve env r).calls = [] := by
  rw [serve_other env r hg hp]
  exact ⟨rfl, rfl⟩

/-- C6 at a request: a DELETE that carries a dealer and a record. -/
theorem assetsHandler_other_method_witness :
    (serve okLedger { Method := "DELETE", Query := queryD1, Body := recordBody }).w.status = 405 ∧
    (serve okLedger { Method := "DELETE", Query := queryD1, Body := recordBody }).calls = [] :=
  assetsHandler_other_method okLedger
    { Method := "DELETE", Query := queryD1, Body := recordBody } (by decide) (by decide)

/-- C7: a POST request whose body decodes to a record `a` and whose submission
succeeds is answered with status 201 and the body `Asset <DEALERID> created
successfully`; the whole response is fixed by `a`, the payload the ledger returned
is not part of it. -/
theorem createAsset_confirms {F : Type} (env : Env F) (r : Request) (a : Asset F)
    (payload : String) (hm : r.Method = "POST") (hd : env.Decode r.Body = .ok a)
    (hs : env.SubmitTransaction "CreateAsset"
      [a.DEALERID, a.MSISDN, a.MPIN, env.Sprintf_f a.BALANCE, a.STATUS,
       env.Sprintf_f a.TRANSAMOUNT, a.TRANSTYPE, a.REMARKS] = .ok payload) :
    (serve env r).w.status = 201 ∧
    (serve env r).w.body = "Asset " ++ a.DEALERID ++ " created successfully" ∧
    (serve env r).w =
      { header := [], wroteHeader := true, status := 201, sent := [],
        body := "Asset " ++ a.DEALERID ++ " created successfully" } := by
  rw [serve_post env r hm, createAsset_created env r a payload hd hs]
  exact ⟨rfl, rfl, rfl⟩

set_option maxRecDepth 100000 in
/-- C7 at a request: the record of dealer `D1`. -/
theorem createAsset_confirms_witness :
    (serve okLedger { Method := "POST", Query := noQuery, Body := recordBody }).w.status = 201 ∧
    (serve okLedger { Method := "POST", Query := noQuery, Body := recordBody }).w.body =
      "Asset D1 created successfully" :=
  have h := createAsset_confirms okLedger
    { Method := "POST", Query := noQuery, Body := recordBody } recordD1 "" rfl (by decide) rfl
  ⟨h.1, h.2.1⟩

/-- C10: for every request and every ledger the handler makes at most one call on
the contract; a GET request never makes a `SubmitTransaction` call and a POST
request never makes an `EvaluateTransaction` call; and the status is 200 or 201
exactly when one call was made and it succeeded. -/
theorem assetsHandler_at_most_one_call {F : Type} (env : Env F) (r : Request) :
    (serve env r).calls.length ≤ 1 ∧
    (r.Method = "GET" → ∀ c ∈ (serve env r).calls, c.kind ≠ .Submit) ∧
    (r.Method = "POST" → ∀ c ∈ (serve env r).calls, c.kind ≠ .Evaluate) ∧
    (((serve env r).w.status = 200 ∨ (serve env r).w.status = 201) ↔
      ∃ c, (serve env r).calls = [c] ∧ c.succeeded = true) := by
  by_cases hg : r.Method = "GET"
  · have hp : r.Method ≠ "POST" := by rw [hg]; decide
    rw [serve_get env r hg]
    by_cases hq : Values.Get r.Query "dealerid" = ""
    · rw [getAsset_missing env r hq]
      simp
    · cases he : env.EvaluateTransaction "ReadAsset" [Values.Get r.Query "dealerid"] with
      | error e =>
        rw [getAsset_failed env r e hq he]
        simp [LedgerCall.succeeded, hp]
      | ok b =>
        rw [getAsset_found env r b hq he]
        simp [LedgerCall.succeeded, hp]
  · by_cases hp : r.Method = "POST"
    · rw [serve_post env r hp]
      cases hd : env.Decode r.Body with
      | error e =>
        rw [createAsset_rejected env r e hd]
        simp
      | ok a =>
        cases hs : env.SubmitTransaction "CreateAsset"
            [a.DEALERID, a.MSISDN, a.MPIN, env.Sprintf_f a.BALANCE, a.STATUS,
             env.Sprintf_f a.TRANSAMOUNT, a.TRANSTYPE, a.REMARKS] with
        | error e =>
          rw [createAsset_failed env r a e hd hs]
          simp [LedgerCall.succeeded, hg]
        | ok b =>
          rw [createAsset_created env r a b hd hs]
          simp [LedgerCall.succeeded, hg]
    · rw [serve_other env r hg hp]
      simp [hg, hp]

set_option maxRecDepth 100000 in
/-- C4 as stated fails: a body that is a record followed by stray text is not a
well-formed JSON document, yet the decoder reads the record, the submission is made
and the answer is 201. The body `null`, which is no record at all, is decoded to
the empty record, submitted and answered 201 as well. -/
theorem createAsset_accepts_trailing_text :
    (Valid (recordBody ++ " trailing") = false ∧
     (serve okLedger
       { Method := "POST", Query := noQuery, Body := recordBody ++ " trailing" }).w.status = 201 ∧
     (serve okLedger
       { Method := "POST", Query := noQuery, Body := recordBody ++ " trailing" }).calls =
       [{ kind := .Submit, name := "CreateAsset",
          args := ["D1", "0300", "1234", "100.000000", "ACTIVE", "25.000000", "CREDIT", "first"],
          result := .ok "" }]) ∧
    ((serve okLedger { Method := "POST", Query := noQuery, Body := "null" }).w.status = 201 ∧
     (serve okLedger { Method := "POST", Query := noQuery, Body := "null" }).calls =
       [{ kind := .Submit, name := "CreateAsset",
          args := ["", "", "", "0.000000", "", "0.000000", "", ""], result := .ok "" }]) := by
  decide

theorem serve_goEnv_rejected {F : Type} (lib : JsonLib F) (Sprintf_f : F → String)
    (EvaluateTransaction SubmitTransaction : String → List String → Except String String)
    (r : Request) (hm : r.Method = "POST") (e : DecodeError)
    (he : Decode lib r.Body = .error e) :
    (serve (goEnv lib Sprintf_f EvaluateTransaction SubmitTransaction) r).w.status = 400 ∧
    (serve (goEnv lib Sprintf_f EvaluateTransaction SubmitTransaction) r).calls = [] := by
  have hd : (goEnv lib Sprintf_f EvaluateTransaction SubmitTransaction).Decode r.Body =
      .error e.Error := by
    simp only [goEnv, he]
  rw [serve_post _ r hm, createAsset_rejected _ r _ hd]
  exact ⟨rfl, rfl⟩

theorem serve_goEnv_accepted {F : Type} (lib : JsonLib F) (Sprintf_f : F → String)
    (EvaluateTransaction SubmitTransaction : String → List String → Except String String)
    (r : Request) (hm : r.Method = "POST") (a : Asset F) (ha : Decode lib r.Body = .ok a) :
    (serve (goEnv lib Sprintf_f EvaluateTransaction SubmitTransaction) r).w.status ≠ 400 ∧
    ∃ c : LedgerCall,
      (serve (goEnv lib Sprintf_f EvaluateTransaction SubmitTransaction) r).calls = [c] ∧
      c.kind = .Submit := by
  have hd : (goEnv lib Sprintf_f EvaluateTransaction SubmitTransaction).Decode r.Body =
      .ok a := by
    simp only [goEnv, ha]
  rw [serve_post _ r hm]
  cases hs : (goEnv lib Sprintf_f EvaluateTransaction SubmitTransaction).SubmitTransaction
      "CreateAsset"
      [a.DEALERID, a.MSISDN, a.MPIN,
       (goEnv lib Sprintf_f EvaluateTransaction SubmitTransaction).Sprintf_f a.BALANCE, a.STATUS,
       (goEnv lib Sprintf_f EvaluateTransaction SubmitTransaction).Sprintf_f a.TRANSAMOUNT,
       a.TRANSTYPE, a.REMARKS] with
  | error e =>
    rw [createAsset_failed _ r a e hd hs]
    exact ⟨show (500 : Nat) ≠ 400 by decide, _, rfl, rfl⟩
  | ok b =>
    rw [createAsset_created _ r a b hd hs]
    exact ⟨show (201 : Nat) ≠ 400 by decide, _, rfl, rfl⟩

/-- C4, amended: on Go's decoder, a POST request is answered with status 400 and
makes no call on the contract when its body does not begin with a well-formed JSON
value (no initial segment of it is a valid JSON document), and when its first JSON
value has not the Account Record shape (it is neither `null` nor an object every
member of which names no field or holds `null` or a value of the type of the field
it names). A body whose first value has that shape is not refused: one submission
is made. And the decoder reads the first value only: a body `v ++ t`, where the
first value ends inside `v`, is served exactly as the body `v`. -/
theorem createAsset_rejects_malformed_body {F : Type} (lib : JsonLib F)
    (Sprintf_f : F → String)
    (EvaluateTransaction SubmitTransaction : String → List String → Except String String)
    (r : Request) (hm : r.Method = "POST") :
    (hasValidStart r.Body = false →
      (serve (goEnv lib Sprintf_f EvaluateTransaction SubmitTransaction) r).w.status = 400 ∧
      (serve (goEnv lib Sprintf_f EvaluateTransaction SubmitTransaction) r).calls = []) ∧
    ((firstValue r.Body).map (recordShape lib) = some false →
      (serve (goEnv lib Sprintf_f EvaluateTransaction SubmitTransaction) r).w.status = 400 ∧
      (serve (goEnv lib Sprintf_f EvaluateTransaction SubmitTransaction) r).calls = []) ∧
    ((firstValue r.Body).map (recordShape lib) = some true →
      (serve (goEnv lib Sprintf_f EvaluateTransaction SubmitTransaction) r).w.status ≠ 400 ∧
      ∃ c : LedgerCall,
        (serve (goEnv lib Sprintf_f EvaluateTransaction SubmitTransaction) r).calls = [c] ∧
        c.kind = .Submit) ∧
    (∀ v t : String, r.Body = v ++ t → firstValueClosed v = true →
      serve (goEnv lib Sprintf_f EvaluateTransaction SubmitTransaction) r =
        serve (goEnv lib Sprintf_f EvaluateTransaction SubmitTransaction)
          { r with Body := v }) := by
  refine ⟨?_, ?_, ?_, ?_⟩
  · intro h
    obtain ⟨e, he⟩ := Decode_error_of_no_valid_start lib r.Body h
    exact serve_goEnv_rejected lib Sprintf_f _ _ r hm e he
  · intro h
    cases hd : Decode lib r.Body with
    | error e => exact serve_goEnv_rejected lib Sprintf_f _ _ r hm e hd
    | ok a =>
      have := (Decode_ok_iff_shape lib r.Body false h).mp ⟨a, hd⟩
      cases this
  · intro h
    obtain ⟨a, ha⟩ := (Decode_ok_iff_shape lib r.Body true h).mpr rfl
    exact serve_goEnv_accepted lib Sprintf_f _ _ r hm a ha
  · intro v t hb hv
    have hd : (goEnv lib Sprintf_f EvaluateTransaction SubmitTransaction).Decode r.Body =
        (goEnv lib Sprintf_f EvaluateTransaction SubmitTransaction).Decode v := by
      simp only [goEnv, hb, Decode_append lib v t hv]
    rw [serve_post _ r hm, serve_post _ { r with Body := v } hm]
    unfold createAsset
    rw [hd]

set_option maxRecDepth 100000 in
/-- C4, amended, at four requests: a body that is no JSON at all and a record whose
DEALERID is a number are refused; the record of dealer `D1` followed by stray text
is submitted, and is served as the record alone. -/
theorem createAsset_rejects_malformed_body_witness :
    ((serve okLedger
      { Method := "POST", Query := noQuery, Body := "this is not json" }).w.status = 400 ∧
     (serve okLedger
      { Method := "POST", Query := noQuery, Body := "this is not json" }).calls = []) ∧
    ((serve okLedger
      { Method := "POST", Query := noQuery, Body := "\x7b\"DEALERID\":1\x7d" }).w.status = 400 ∧
     (serve okLedger
      { Method := "POST", Query := noQuery, Body := "\x7b\"DEALERID\":1\x7d" }).calls = []) ∧
    ((serve okLedger
      { Method := "POST", Query := noQuery,
        Body := recordBody ++ " trailing" }).w.status ≠ 400 ∧
     ∃ c : LedgerCall,
      (serve okLedger
        { Method := "POST", Query := noQuery, Body := recordBody ++ " trailing" }).calls = [c] ∧
      c.kind = .Submit) ∧
    serve okLedger { Method := "POST", Query := noQuery, Body := recordBody ++ " trailing" } =
      serve okLedger { Method := "POST", Query := noQuery, Body := recordBody } :=
  ⟨(createAsset_rejects_malformed_body wholeLib wholeSprintf_f okEvaluate okSubmit
      { Method := "POST", Query := noQuery, Body := "this is not json" } rfl).1 (by decide),
   (createAsset_rejects_malformed_body wholeLib wholeSprintf_f okEvaluate okSubmit
      { Method := "POST", Query := noQuery, Body := "\x7b\"DEALERID\":1\x7d" } rfl).2.1
      (by decide),
   (createAsset_rejects_malformed_body wholeLib wholeSprintf_f okEvaluate okSubmit
      { Method := "POST", Query := noQuery, Body := recordBody ++ " trailing" } rfl).2.2.1
      (by decide),
   (createAsset_rejects_malformed_body wholeLib wholeSprintf_f okEvaluate okSubmit
      { Method := "POST", Query := noQuery, Body := recordBody ++ " trailing" } rfl).2.2.2
      recordBody " trailing" rfl (by decide)⟩

/-- C5 as stated fails: when the ledger is down the body of the 500 answer is not
the message alone, a line feed follows it. -/
theorem ledger_failure_body_has_line_feed :
    (serve downLedger { Method := "GET", Query := queryD1, Body := "" }).w.status = 500 ∧
    (serve downLedger { Method := "GET", Query := queryD1, Body := "" }).w.body ≠
      "Failed to evaluate transaction: " ++ "connection refused" ∧
    (serve downLedger { Method := "GET", Query := queryD1, Body := "" }).w.body =
      "Failed to evaluate transaction: " ++ "connection refused" ++ "\n" := by
  decide

/-- C5, amended: when the call on the contract fails with the error `e`, the
status is 500, the content type is `text/plain; charset=utf-8` (so neither 200 nor
201 nor `application/json` goes out) and the body is the message followed by a
line feed: `Failed to evaluate transaction: e` for a GET with a `dealerid`,
`Failed to submit transaction: e` for a POST whose body decodes. -/
theorem ledger_failure_is_500 {F : Type} (env : Env F) (r : Request) (e : String) :
    (r.Method = "GET" → Values.Get r.Query "dealerid" ≠ "" →
      env.EvaluateTransaction "ReadAsset" [Values.Get r.Query "dealerid"] = .error e →
        (serve env r).w.status = 500 ∧
        (serve env r).w.body = "Failed to evaluate transaction: " ++ e ++ "\n" ∧
        Header.Get (serve env r).w.sent "Content-Type" = "text/plain; charset=utf-8" ∧
        (serve env r).w.status ≠ 200 ∧ (serve env r).w.status ≠ 201 ∧
        Header.Get (serve env r).w.sent "Content-Type" ≠ "application/json") ∧
    (r.Method = "POST" → ∀ a : Asset F, env.Decode r.Body = .ok a →
      env.SubmitTransaction "CreateAsset"
        [a.DEALERID, a.MSISDN, a.MPIN, env.Sprintf_f a.BALANCE, a.STATUS,
         env.Sprintf_f a.TRANSAMOUNT, a.TRANSTYPE, a.REMARKS] = .error e →
        (serve env r).w.status = 500 ∧
        (serve env r).w.body = "Failed to submit transaction: " ++ e ++ "\n" ∧
        Header.Get (serve env r).w.sent "Content-Type" = "text/plain; charset=utf-8" ∧
        (serve env r).w.status ≠ 200 ∧ (serve env r).w.status ≠ 201 ∧
        Header.Get (serve env r).w.sent "Content-Type" ≠ "application/json") := by
  constructor
  · intro hm hne he
    rw [serve_get env r hm, getAsset_failed env r e hne he]
    refine ⟨rfl, rfl, errorHeader_contentType, ?_, ?_, ?_⟩
    · show (500 : Nat) ≠ 200
      decide
    · show (500 : Nat) ≠ 201
      decide
    · rw [errorHeader_contentType]
      decide
  · intro hm a hd he
    rw [serve_post env r hm, createAsset_failed env r a e hd he]
    refine ⟨rfl, rfl, errorHeader_contentType, ?_, ?_, ?_⟩
    · show (500 : Nat) ≠ 200
      decide
    · show (500 : Nat) ≠ 201
      decide
    · rw [errorHeader_contentType]
      decide

set_option maxRecDepth 100000 in
/-- C5, amended, at two requests on a ledger that is down: a read of dealer `D1`
and the record of dealer `D1` posted. -/
theorem ledger_failure_is_500_witness :
    ((serve downLedger { Method := "GET", Query := queryD1, Body := "" }).w.status = 500 ∧
     (serve downLedger { Method := "GET", Query := queryD1, Body := "" }).w.body =
       "Failed to evaluate transaction: connection refused\n") ∧
    ((serve downLedger
        { Method := "POST", Query := noQuery, Body := recordBody }).w.status = 500 ∧
     (serve downLedger { Method := "POST", Query := noQuery, Body := recordBody }).w.body =
       "Failed to submit transaction: connection refused\n") :=
  have hget := (ledger_failure_is_500 downLedger
    { Method := "GET", Query := queryD1, Body := "" } "connection refused").1
    rfl (by decide) rfl
  have hpost := (ledger_failure_is_500 downLedger
    { Method := "POST", Query := noQuery, Body := recordBody } "connection refused").2
    rfl recordD1 (by decide) rfl
  ⟨⟨hget.1, hget.2.1⟩, ⟨hpost.1, hpost.2.1⟩⟩

/-- C8 at the failing input: a POST whose body is the empty object, or a record
whose DEALERID is the empty string, is decoded, submitted with the empty string as
its DEALERID and answered 201, whereas the read path refuses the empty dealer
identifier with 400 before any call on the contract. -/
theorem createAsset_submits_empty_dealerid :
    ((serve okLedger { Method := "POST", Query := noQuery, Body := "\x7b\x7d" }).calls =
       [{ kind := .Submit, name := "CreateAsset",
          args := ["", "", "", "0.000000", "", "0.000000", "", ""], result := .ok "" }] ∧
     (serve okLedger
       { Method := "POST", Query := noQuery, Body := "\x7b\x7d" }).w.status = 201) ∧
    ((serve okLedger
       { Method := "POST", Query := noQuery, Body := "\x7b\"DEALERID\":\"\"\x7d" }).calls =
       [{ kind := .Submit, name := "CreateAsset",
          args := ["", "", "", "0.000000", "", "0.000000", "", ""], result := .ok "" }] ∧
     (serve okLedger
       { Method := "POST", Query := noQuery, Body := "\x7b\"DEALERID\":\"\"\x7d" }).w.status =
       201 ∧
     (serve okLedger
       { Method := "POST", Query := noQuery, Body := "\x7b\"DEALERID\":\"\"\x7d" }).w.body =
       "Asset  created successfully") ∧
    ((serve okLedger { Method := "GET", Query := queryEmpty, Body := "" }).w.status = 400 ∧
     (serve okLedger { Method := "GET", Query := queryEmpty, Body := "" }).calls = []) := by
  decide

/-! ## The claim about credential loading -/

/-- C9: `newSign` ends in a panic, so that no signer is returned and `main` does not
get to serve, whenever the key directory cannot be listed, the listing is empty,
the first entry cannot be read, or its content is not a PEM private key; and of a
listing it uses the first entry only: the one file it reads is the first entry of
the key directory, and the entries after the first do not change the run. -/
theorem newSign_first_entry_or_fatal {Key Sign : Type} (sys : Sys Key Sign) :
    (∀ files err, sys.ReadDir keyPath = (files, some err) →
      (newSign sys).result = .error ("failed to read keystore directory: " ++ err)) ∧
    (sys.ReadDir keyPath = ([], none) → ∃ p, (newSign sys).result = .error p) ∧
    (∀ first rest err, sys.ReadDir keyPath = (first :: rest, none) →
      sys.ReadFile (sys.Join keyPath first) = .error err →
        (newSign sys).result = .error ("failed to read private key file: " ++ err)) ∧
    (∀ first rest pem err, sys.ReadDir keyPath = (first :: rest, none) →
      sys.ReadFile (sys.Join keyPath first) = .ok pem →
      sys.PrivateKeyFromPEM pem = .error err → (newSign sys).result = .error err) ∧
    (∀ (Conn Id Gw : Type) (boot : Boot Conn Id Sign Gw) (p : String),
      (newSign sys).result = .error p → ∃ q, mainStartup boot sys = .error q) ∧
    (∀ first rest, sys.ReadDir keyPath = (first :: rest, none) →
      (newSign sys).reads = [sys.Join keyPath first] ∧
      ∀ rest1 : List String,
        newSign { sys with ReadDir := fun _ => (first :: rest1, none) } = newSign sys) := by
  refine ⟨?_, ?_, ?_, ?_, ?_, ?_⟩
  · intro files err h
    simp [newSign, h]
  · intro h
    exact ⟨"runtime error: index out of range [0] with length 0", by simp [newSign, h]⟩
  · intro first rest err h hr
    simp [newSign, h, hr]
  · intro first rest pem err h hr hk
    simp [newSign, h, hr, hk]
  · intro Conn Id Gw boot p h
    unfold mainStartup
    cases boot.newGrpcConnection with
    | error q => exact ⟨q, rfl⟩
    | ok conn =>
      cases boot.newIdentity with
      | error q => exact ⟨q, rfl⟩
      | ok id => exact ⟨p, by simp [h]⟩
  · intro first rest h
    constructor
    · simp only [newSign, h]
      cases hr : sys.ReadFile (sys.Join keyPath first) with
      | error err => rfl
      | ok pem =>
        cases hk : sys.PrivateKeyFromPEM pem with
        | error err => simp only [hk]
        | ok key =>
          cases hs : sys.NewPrivateKeySign key with
          | error err => simp only [hk, hs]
          | ok sign => simp only [hk, hs]
    · intro rest1
      simp only [newSign, h]

/-- C9 at a keystore with two entries, and with its listing replaced: the first
file alone is read and gives the signer; a listing that fails, an empty listing, a
first entry that is missing and a first entry that is no key each end in a panic. -/
theorem newSign_first_entry_or_fatal_witness :
    ((newSign twoKeys).reads = [keyPath ++ "a_sk"] ∧
     (newSign twoKeys).result = .ok "sign with key a") ∧
    (newSign (withListing twoKeys (["a_sk"], some "permission denied"))).result =
      .error "failed to read keystore directory: permission denied" ∧
    (∃ p, (newSign (withListing twoKeys ([], none))).result = .error p) ∧
    (newSign (withListing twoKeys (["c_sk", "a_sk"], none))).result =
      .error "failed to read private key file: no such file" ∧
    (newSign (withListing twoKeys (["b_sk", "a_sk"], none))).result =
      .error "failed to parse PEM" :=
  ⟨⟨((newSign_first_entry_or_fatal twoKeys).2.2.2.2.2 "a_sk" ["b_sk"] (by decide)).1,
    by decide⟩,
   (newSign_first_entry_or_fatal (withListing twoKeys (["a_sk"], some "permission denied"))).1
     ["a_sk"] "permission denied" rfl,
   (newSign_first_entry_or_fatal (withListing twoKeys ([], none))).2.1 rfl,
   (newSign_first_entry_or_fatal (withListing twoKeys (["c_sk", "a_sk"], none))).2.2.1
     "c_sk" ["a_sk"] "no such file" rfl (by decide),
   (newSign_first_entry_or_fatal (withListing twoKeys (["b_sk", "a_sk"], none))).2.2.2.1
     "b_sk" ["a_sk"] "garbage" "failed to parse PEM" rfl (by decide) (by decide)⟩


end FinancialApi
